import Mathlib

/-!
Shallow embedding of the rotating file sink of `elog.go` — the
`EasyFileHandler` with its `Write`, `Flush` and `rotateFile` methods —
together with theorems about its rotation, buffering and error behaviour.

The filesystem is modelled as an association list from file names to byte
contents.  Fallible system calls (`file.Close`, `os.Remove`, `os.Rename`,
`os.OpenFile`) consult an explicit error schedule carried in the world state;
an empty schedule means no filesystem error occurs.  Writes performed by the
buffered writer to an open file are assumed to succeed (the claims under
study concern close/remove/rename/open failures); a write through a
writer whose underlying file has already been closed fails, and `elog.go`
ignores the error returned by `buffer.Flush()`, so such a flush leaves the
buffered bytes in place and touches no file.

`os.Args[0]` (the program name), the current date (`getTimeNowDate()`) and
the size threshold enter the functions as explicit parameters `prog`, `date`
and `maxFileSize`; in the source the threshold is the constant
`LOG_MAX_FILE_SIZE` below and the backup-chain depth is the constant
`LOG_MAX_ROTATE_FILE_NUM`.
-/

namespace Elog

/-- A byte, modelled as a natural number. -/
abbrev Byte := Nat

/-- `LOG_MAX_FILE_SIZE = 1024 * 1024 * 1024` from `elog.go`. -/
def LOG_MAX_FILE_SIZE : Nat := 1024 * 1024 * 1024

/-- `LOG_MAX_BUFFER_SIZE = 1024 * 1024` from `elog.go`. -/
def LOG_MAX_BUFFER_SIZE : Nat := 1024 * 1024

/-- `LOG_MAX_ROTATE_FILE_NUM = 10` from `elog.go`. -/
def LOG_MAX_ROTATE_FILE_NUM : Nat := 10

/-- The modelled filesystem: file names paired with their byte contents. -/
abbrev Fs := List (String × List Byte)

/-- Look a file up by name. -/
def fsLookup : Fs → String → Option (List Byte)
  | [], _ => none
  | (n, c) :: rest, x => if n = x then some c else fsLookup rest x

/-- Delete a file (all entries with the given name). -/
def fsRemove (fs : Fs) (p : String) : Fs :=
  fs.filter (fun e => e.1 != p)

/-- Create or overwrite a file with the given contents. -/
def fsSet (fs : Fs) (p : String) (c : List Byte) : Fs :=
  (p, c) :: fsRemove fs p

/-- Append bytes to a file if it exists; appending to a name with no entry
models a write to an orphaned handle and reaches no named file. -/
def fsAppend (fs : Fs) (p : String) (bytes : List Byte) : Fs :=
  fs.map (fun e => if e.1 = p then (e.1, e.2 ++ bytes) else e)

/-- The world: the filesystem, the schedule of injected syscall failures
(one Boolean per fallible syscall, `true` = that call fails; an exhausted
schedule means no further failures), and the lines written to stderr. -/
structure World where
  fs : Fs
  errs : List Bool
  stderrLines : List String
deriving DecidableEq

/-- Consume the next entry of the failure schedule. -/
def popErr : World → Bool × World
  | ⟨fs, [], st⟩ => (false, ⟨fs, [], st⟩)
  | ⟨fs, b :: rest, st⟩ => (b, ⟨fs, rest, st⟩)

/-- `fileIsExist` from `elog.go` (`os.Stat` succeeded or failed with an
error other than not-exist); in the model, existence of the name. -/
def fileIsExist (w : World) (p : String) : Bool :=
  (fsLookup w.fs p).isSome

/-- The errors the modelled syscalls can produce.  `invalid` is
`os.ErrInvalid`, returned by `(*os.File).Close` on a nil receiver. -/
inductive Err where
  | close
  | remove
  | rename
  | openFail
  | invalid
deriving DecidableEq

/-- `err.Error()` for the modelled errors. -/
def Err.message : Err → String
  | .close => "close error"
  | .remove => "remove error"
  | .rename => "rename error"
  | .openFail => "open error"
  | .invalid => "invalid argument"

/-- The `bufio.Writer` installed over the active file: the name of the file
it writes to, whether that underlying handle is still open, and the pending
buffered bytes. -/
structure GoBuffer where
  target : String
  live : Bool
  data : List Byte
deriving DecidableEq

/-- The `EasyFileHandler` struct from `elog.go`.  `file` holds the name the
active handle was opened under (`none` = the nil pointer). -/
structure EasyFileHandler where
  path : String
  file : Option String
  buffer : Option GoBuffer
  bufferSize : Nat
  currentDate : String
  nbytes : Nat
deriving DecidableEq

/-- `NewEasyFileHandler` from `elog.go`. -/
def NewEasyFileHandler (path : String) (bufferSize : Nat) : EasyFileHandler :=
  { path := path
    file := none
    buffer := none
    bufferSize := bufferSize
    currentDate := ""
    nbytes := 0 }

/-- `bufio.Writer.Flush`: nothing to do when no bytes are buffered; moves
the buffered bytes to the underlying file when its handle is open; when the
handle has been closed the underlying write fails and the buffered bytes
stay in place (the caller in `elog.go` ignores the returned error). -/
def bufFlush (b : GoBuffer) (w : World) : GoBuffer × World :=
  if b.data = [] then (b, w)
  else if b.live then
    ({ b with data := [] }, { w with fs := fsAppend w.fs b.target b.data })
  else (b, w)

/-- The call site `efh.buffer.Flush()`; the nil-writer case never arises in
the modelled flows (in Go it would dereference a nil pointer). -/
def goBufFlush (efh : EasyFileHandler) (w : World) : EasyFileHandler × World :=
  match efh.buffer with
  | none => (efh, w)
  | some b =>
    let bw := bufFlush b w
    ({ efh with buffer := some bw.1 }, bw.2)

/-- The call site `efh.file.Close()`: on a nil handle `os.File.Close`
returns `os.ErrInvalid` without consulting the operating system; on an open
handle the call may fail per the schedule, and on success the handle closes,
which invalidates the buffered writer wrapping it. -/
def goClose (efh : EasyFileHandler) (w : World) : Option Err × EasyFileHandler × World :=
  match efh.file with
  | none => (some .invalid, efh, w)
  | some _ =>
    let fw := popErr w
    if fw.1 then (some .close, efh, fw.2)
    else
      (none,
        { efh with buffer := efh.buffer.map (fun b => { b with live := false }) },
        fw.2)

/-- `os.Remove`. -/
def osRemove (p : String) (w : World) : Option Err × World :=
  let fw := popErr w
  if fw.1 then (some .remove, fw.2)
  else (none, { fw.2 with fs := fsRemove fw.2.fs p })

/-- `os.Rename`.  Call sites guard with `fileIsExist`, so the source name is
present whenever this runs in the modelled flows. -/
def osRename (src dst : String) (w : World) : Option Err × World :=
  let fw := popErr w
  if fw.1 then (some .rename, fw.2)
  else
    match fsLookup fw.2.fs src with
    | none => (none, fw.2)
    | some c => (none, { fw.2 with fs := fsSet (fsRemove fw.2.fs src) dst c })

/-- `os.OpenFile(p, os.O_RDWR|os.O_CREATE|os.O_APPEND, 0666)`: existing
contents are kept, a missing file is created empty. -/
def osOpenFile (p : String) (w : World) : Option Err × World :=
  let fw := popErr w
  if fw.1 then (some .openFail, fw.2)
  else
    match fsLookup fw.2.fs p with
    | some _ => (none, fw.2)
    | none => (none, { fw.2 with fs := fsSet fw.2.fs p [] })

/-- The live file name `path + "/" + prog + "-" + date + ".log"`
(lines 141 and 156 of `elog.go`). -/
def liveName (path prog date : String) : String :=
  path ++ "/" ++ prog ++ "-" ++ date ++ ".log"

/-- The backup name `path + "/" + prog + "-" + date + ".log." + strconv.Itoa i`
(lines 130, 143 and 146 of `elog.go`). -/
def idxName (path prog date : String) (i : Nat) : String :=
  path ++ "/" ++ prog ++ "-" ++ date ++ ".log." ++ Nat.repr i

/-- The name the rename loop computes for index `i` (lines 139-144 of
`elog.go`): the live name at index 0, the backup name otherwise. -/
def logName (path prog date : String) (i : Nat) : String :=
  if i = 0 then liveName path prog date else idxName path prog date i

/-- One iteration of the rename loop (lines 138-152 of `elog.go`): if the
file at index `i` exists, rename it to index `i + 1`. -/
def shiftOne (path prog date : String) (i : Nat) (w : World) : Option Err × World :=
  if fileIsExist w (logName path prog date i) then
    osRename (logName path prog date i) (idxName path prog date (i + 1)) w
  else (none, w)

/-- The rename loop over a list of indices, aborting on the first error;
`elog.go` runs it over `LOG_MAX_ROTATE_FILE_NUM - 2` down to `0`. -/
def shiftChain (path prog date : String) : List Nat → World → Option Err × World
  | [], w => (none, w)
  | i :: rest, w =>
    match shiftOne path prog date i w with
    | (some e, w1) => (some e, w1)
    | (none, w1) => shiftChain path prog date rest w1

/-- Lines 109-119 of `elog.go`: the date-rollover branch.  On a close error
the function returns before `efh.file = nil` and before `efh.currentDate`
is updated.  `efh.nbytes` is not touched here. -/
def rotateDate (date : String) (efh : EasyFileHandler) (w : World) :
    Option Err × EasyFileHandler × World :=
  if efh.currentDate ≠ date then
    match efh.file with
    | some _ =>
      let fw := goBufFlush efh w
      match goClose fw.1 fw.2 with
      | (some e, efh2, w2) => (some e, efh2, w2)
      | (none, efh2, w2) =>
        (none, { efh2 with file := none, currentDate := date }, w2)
    | none => (none, { efh with currentDate := date }, w)
  else (none, efh, w)

/-- Lines 121-153 of `elog.go`: the size-rollover branch.  The flush and
close run unconditionally when `nbytes` exceeds the threshold, even when
`efh.file` is already nil; on a close error the function returns before
`efh.file = nil`.  Then the oldest backup is removed if present and the
rename loop shifts indices `LOG_MAX_ROTATE_FILE_NUM - 2` down to `0`. -/
def rotateSize (prog : String) (maxFileSize : Nat) (date : String)
    (efh : EasyFileHandler) (w : World) : Option Err × EasyFileHandler × World :=
  if efh.nbytes > maxFileSize then
    let fw := goBufFlush efh w
    match goClose fw.1 fw.2 with
    | (some e, efh2, w2) => (some e, efh2, w2)
    | (none, efh2, w2) =>
      let efh3 := { efh2 with file := none }
      let oldest := idxName efh3.path prog date (LOG_MAX_ROTATE_FILE_NUM - 1)
      match (if fileIsExist w2 oldest then osRemove oldest w2 else (none, w2)) with
      | (some e, w3) => (some e, efh3, w3)
      | (none, w3) =>
        let sc := shiftChain efh3.path prog date
          ((List.range (LOG_MAX_ROTATE_FILE_NUM - 1)).reverse) w3
        (sc.1, efh3, sc.2)
  else (none, efh, w)

/-- Lines 155-163 of `elog.go`: open the live file if no file is open,
reset `nbytes` and install a fresh buffered writer.  On an open error the
handler keeps the nil handle Go assigns from the failed `os.OpenFile`. -/
def openIfNeeded (prog date : String) (efh : EasyFileHandler) (w : World) :
    Option Err × EasyFileHandler × World :=
  match efh.file with
  | some _ => (none, efh, w)
  | none =>
    let p := liveName efh.path prog date
    match osOpenFile p w with
    | (some e, w1) => (some e, { efh with file := none }, w1)
    | (none, w1) =>
      (none,
        { efh with
          file := some p
          nbytes := 0
          buffer := some ({ target := p, live := true, data := [] } : GoBuffer) }, w1)

/-- `EasyFileHandler.rotateFile` from `elog.go` (lines 104-165), as the
sequence of its three parts, aborting on the first error. -/
def rotateFile (prog : String) (maxFileSize : Nat) (date : String)
    (efh : EasyFileHandler) (w : World) : Option Err × EasyFileHandler × World :=
  match rotateDate date efh w with
  | (some e, efh1, w1) => (some e, efh1, w1)
  | (none, efh1, w1) =>
    match rotateSize prog maxFileSize date efh1 w1 with
    | (some e, efh2, w2) => (some e, efh2, w2)
    | (none, efh2, w2) => openIfNeeded prog date efh2 w2

/-- `bufio.Writer.Write` with the underlying writes succeeding: the payload
is buffered when it fits; a payload larger than the free space flushes the
buffer (filling it first when nonempty) and oversized remainders bypass the
buffer entirely. -/
def bufWrite (cap : Nat) (b : GoBuffer) (p : List Byte) (w : World) : GoBuffer × World :=
  if b.data.length + p.length ≤ cap then ({ b with data := b.data ++ p }, w)
  else if b.data.length = 0 then (b, { w with fs := fsAppend w.fs b.target p })
  else
    let n := cap - b.data.length
    let w1 := { w with fs := fsAppend w.fs b.target (b.data ++ p.take n) }
    let rest := p.drop n
    if cap < rest.length then
      ({ b with data := [] }, { w1 with fs := fsAppend w1.fs b.target rest })
    else ({ b with data := rest }, w1)

/-- `EasyFileHandler.Write` from `elog.go` (lines 84-95): run the rotation
check; on error write the message to stderr and return `(0, err)`; on
success add the payload length to `nbytes` and hand the payload to the
buffered writer. -/
def Write (prog : String) (maxFileSize : Nat) (date : String) (data : List Byte)
    (efh : EasyFileHandler) (w : World) :
    (Nat × Option Err) × EasyFileHandler × World :=
  match rotateFile prog maxFileSize date efh w with
  | (some e, efh1, w1) =>
    ((0, some e), efh1,
      { w1 with stderrLines := w1.stderrLines ++ [Err.message e ++ "\n"] })
  | (none, efh1, w1) =>
    let efh2 := { efh1 with nbytes := efh1.nbytes + data.length }
    match efh2.buffer with
    | none => ((data.length, none), efh2, w1)
    | some b =>
      let bw := bufWrite efh2.bufferSize b data w1
      ((data.length, none), { efh2 with buffer := some bw.1 }, bw.2)

/-- `EasyFileHandler.Flush` from `elog.go` (lines 97-102): flush the
buffered writer when a file is open, do nothing otherwise. -/
def Flush (efh : EasyFileHandler) (w : World) : EasyFileHandler × World :=
  match efh.file with
  | none => (efh, w)
  | some _ => goBufFlush efh w

/-- A sequence of `Write` calls with a fixed date, threading the handler
and the world. -/
def writeSeq (prog : String) (maxFileSize : Nat) (date : String) :
    List (List Byte) → EasyFileHandler × World → EasyFileHandler × World
  | [], s => s
  | d :: ds, s => writeSeq prog maxFileSize date ds (Write prog maxFileSize date d s.1 s.2).2

/-! ## Facts about file names -/

lemma data_app (s t : String) : (s ++ t).data = s.data ++ t.data := rfl

lemma str_eq_of_data {s t : String} (h : s.data = t.data) : s = t := by
  cases s; cases t; exact congrArg String.mk h

lemma liveName_ne_idxName (path prog d : String) (n : Nat) :
    liveName path prog d ≠ idxName path prog d n := by
  intro h
  have hd := congrArg String.data h
  simp only [liveName, idxName, data_app, List.append_assoc, List.append_right_inj] at hd
  have hlen := congrArg List.length hd
  simp [List.length_append] at hlen

lemma idxName_ne_idxName (path prog d : String) {m n : Nat} (h : Nat.repr m ≠ Nat.repr n) :
    idxName path prog d m ≠ idxName path prog d n := by
  intro he
  apply h
  have hd := congrArg String.data he
  simp only [idxName, data_app, List.append_assoc, List.append_right_inj] at hd
  exact str_eq_of_data hd

lemma liveName_inj {path prog d0 d1 : String} (h : liveName path prog d0 = liveName path prog d1) :
    d0 = d1 := by
  have hd := congrArg String.data h
  simp only [liveName, data_app, List.append_assoc, List.append_right_inj] at hd
  exact str_eq_of_data ((List.append_left_inj _).mp hd)

lemma idxName_ne_liveName (path prog d : String) (n : Nat) :
    idxName path prog d n ≠ liveName path prog d :=
  (liveName_ne_idxName path prog d n).symm

/-! ## Facts about the modelled filesystem -/

lemma fsLookup_cons (n : String) (c : List Byte) (rest : Fs) (x : String) :
    fsLookup ((n, c) :: rest) x = if n = x then some c else fsLookup rest x := rfl

lemma fsLookup_fsRemove (fs : Fs) (p x : String) :
    fsLookup (fsRemove fs p) x = if p = x then none else fsLookup fs x := by
  induction fs with
  | nil => simp [fsRemove, fsLookup]
  | cons e rest ih =>
    obtain ⟨n, c⟩ := e
    simp only [fsRemove, List.filter_cons] at ih ⊢
    by_cases hnp : n = p <;> by_cases hpx : p = x <;>
      simp_all [fsLookup, bne_iff_ne]

lemma fsLookup_fsSet (fs : Fs) (p : String) (c : List Byte) (x : String) :
    fsLookup (fsSet fs p c) x = if p = x then some c else fsLookup fs x := by
  by_cases hx : p = x
  · simp [fsSet, fsLookup, hx]
  · simp [fsSet, fsLookup, hx, fsLookup_fsRemove]

lemma fsLookup_fsAppend (fs : Fs) (p : String) (bytes : List Byte) (x : String) :
    fsLookup (fsAppend fs p bytes) x =
      if p = x then (fsLookup fs p).map (fun c => c ++ bytes) else fsLookup fs x := by
  induction fs with
  | nil => simp [fsAppend, fsLookup]
  | cons e rest ih =>
    obtain ⟨n, c⟩ := e
    have hcons : fsAppend ((n, c) :: rest) p bytes
        = (if n = p then (n, c ++ bytes) else (n, c)) :: fsAppend rest p bytes := by
      simp [fsAppend]
    rw [hcons]
    by_cases hnp : n = p
    · subst hnp
      rw [if_pos rfl, fsLookup_cons]
      by_cases hnx : n = x
      · subst hnx
        rw [if_pos rfl, if_pos rfl, fsLookup_cons, if_pos rfl]
        rfl
      · rw [if_neg hnx, ih]
        simp [fsLookup_cons, hnx]
    · rw [if_neg hnp, fsLookup_cons]
      by_cases hnx : n = x
      · subst hnx
        have hpx : ¬p = n := fun h => hnp h.symm
        rw [if_pos rfl, if_neg hpx, fsLookup_cons, if_pos rfl]
      · rw [if_neg hnx, ih]
        simp [fsLookup_cons, hnx, hnp]

lemma popErr_nil {w : World} (h : w.errs = []) : popErr w = (false, w) := by
  obtain ⟨fs, errs, st⟩ := w
  subst h
  rfl

/-! ## The rename chain on the success path -/

lemma shiftOne_spec (path prog d : String) (i : Nat) (w : World) (herrs : w.errs = [])
    (hpre : fsLookup w.fs (idxName path prog d (i + 1)) = none)
    (hne : logName path prog d i ≠ idxName path prog d (i + 1)) :
    ∃ w', shiftOne path prog d i w = (none, w') ∧
      w'.errs = [] ∧ w'.stderrLines = w.stderrLines ∧
      fsLookup w'.fs (idxName path prog d (i + 1)) = fsLookup w.fs (logName path prog d i) ∧
      fsLookup w'.fs (logName path prog d i) = none ∧
      ∀ x, x ≠ logName path prog d i → x ≠ idxName path prog d (i + 1) →
        fsLookup w'.fs x = fsLookup w.fs x := by
  by_cases hex : fileIsExist w (logName path prog d i)
  · obtain ⟨c, hc⟩ : ∃ c, fsLookup w.fs (logName path prog d i) = some c :=
      Option.isSome_iff_exists.mp hex
    have hne' : idxName path prog d (i + 1) ≠ logName path prog d i :=
      fun h => hne h.symm
    have heq : shiftOne path prog d i w =
        (none, { w with fs := fsSet (fsRemove w.fs (logName path prog d i))
                                (idxName path prog d (i + 1)) c }) := by
      simp only [shiftOne, hex, if_true, osRename, popErr_nil herrs]
      rw [hc]
      rfl
    refine ⟨_, heq, herrs, rfl, ?_, ?_, ?_⟩
    · simp [fsLookup_fsSet, hc]
    · simp [fsLookup_fsSet, fsLookup_fsRemove, hne']
    · intro x hx1 hx2
      have hx1' : logName path prog d i ≠ x := fun h => hx1 h.symm
      have hx2' : idxName path prog d (i + 1) ≠ x := fun h => hx2 h.symm
      simp [fsLookup_fsSet, fsLookup_fsRemove, hx1', hx2']
  · have hnone : fsLookup w.fs (logName path prog d i) = none := by
      rw [← Option.not_isSome_iff_eq_none]
      simpa [fileIsExist] using hex
    have heq : shiftOne path prog d i w = (none, w) := by
      simp [shiftOne, hex]
    refine ⟨w, heq, herrs, rfl, ?_, hnone, fun x _ _ => rfl⟩
    rw [hpre, hnone]

lemma bufFlush_spec (b : GoBuffer) (w : World) (c : List Byte) (hlive : b.live = true)
    (hl : fsLookup w.fs b.target = some c) :
    ∃ w1, bufFlush b w = ({ b with data := [] }, w1) ∧
      w1.errs = w.errs ∧ w1.stderrLines = w.stderrLines ∧
      fsLookup w1.fs b.target = some (c ++ b.data) ∧
      ∀ x, x ≠ b.target → fsLookup w1.fs x = fsLookup w.fs x := by
  by_cases hd : b.data = []
  · refine ⟨w, ?_, rfl, rfl, ?_, fun x _ => rfl⟩
    · obtain ⟨t, l, dt⟩ := b
      simp only at hd
      subst hd
      simp [bufFlush]
    · rw [hl, hd]
      simp
  · refine ⟨{ w with fs := fsAppend w.fs b.target b.data }, ?_, rfl, rfl, ?_, ?_⟩
    · simp [bufFlush, hd, hlive]
    · simp [fsLookup_fsAppend, hl]
    · intro x hx
      have hx' : b.target ≠ x := fun h => hx h.symm
      simp [fsLookup_fsAppend, hx']

lemma rotateDate_same {date : String} {efh : EasyFileHandler} {w : World}
    (hcd : efh.currentDate = date) : rotateDate date efh w = (none, efh, w) := by
  simp [rotateDate, hcd]

lemma rotateSize_small {prog date : String} {mfs : Nat} {efh : EasyFileHandler} {w : World}
    (h : ¬efh.nbytes > mfs) : rotateSize prog mfs date efh w = (none, efh, w) := by
  simp [rotateSize]
  omega

lemma openIfNeeded_spec (prog d : String) (efh : EasyFileHandler) (w : World)
    (hfile : efh.file = none) (herrs : w.errs = []) :
    ∃ w', openIfNeeded prog d efh w = (none,
        { efh with
          file := some (liveName efh.path prog d)
          nbytes := 0
          buffer := some ⟨liveName efh.path prog d, true, []⟩ }, w') ∧
      w'.errs = [] ∧ w'.stderrLines = w.stderrLines ∧
      fsLookup w'.fs (liveName efh.path prog d)
        = some ((fsLookup w.fs (liveName efh.path prog d)).getD []) ∧
      ∀ x, x ≠ liveName efh.path prog d → fsLookup w'.fs x = fsLookup w.fs x := by
  cases hl : fsLookup w.fs (liveName efh.path prog d) with
  | some v =>
    refine ⟨w, ?_, herrs, rfl, ?_, fun x _ => rfl⟩
    · simp only [openIfNeeded, hfile, osOpenFile, popErr_nil herrs]
      rw [hl]
      rfl
    · rw [hl]
      rfl
  | none =>
    refine ⟨{ w with fs := fsSet w.fs (liveName efh.path prog d) [] }, ?_, herrs, rfl, ?_, ?_⟩
    · simp only [openIfNeeded, hfile, osOpenFile, popErr_nil herrs]
      rw [hl]
      rfl
    · simp [fsLookup_fsSet]
    · intro x hx
      have hx' : liveName efh.path prog d ≠ x := fun h => hx h.symm
      simp [fsLookup_fsSet, hx']

lemma shiftChain_spec (path prog d : String) (w : World) (herrs : w.errs = [])
    (h9 : fsLookup w.fs (idxName path prog d 9) = none) :
    ∃ w', shiftChain path prog d [8, 7, 6, 5, 4, 3, 2, 1, 0] w = (none, w') ∧
      w'.errs = [] ∧ w'.stderrLines = w.stderrLines ∧
      fsLookup w'.fs (liveName path prog d) = none ∧
      fsLookup w'.fs (idxName path prog d 1) = fsLookup w.fs (liveName path prog d) ∧
      (∀ j, 1 ≤ j → j ≤ 8 → fsLookup w'.fs (idxName path prog d (j + 1))
          = fsLookup w.fs (idxName path prog d j)) ∧
      ∀ x, x ≠ liveName path prog d →
        (∀ i, 1 ≤ i → i ≤ 9 → x ≠ idxName path prog d i) →
        fsLookup w'.fs x = fsLookup w.fs x := by
  have nn : ∀ a b : Nat, Nat.repr a ≠ Nat.repr b →
      idxName path prog d a ≠ idxName path prog d b :=
    fun a b h => idxName_ne_idxName path prog d h
  have ln : ∀ n : Nat, liveName path prog d ≠ idxName path prog d n :=
    liveName_ne_idxName path prog d
  have nl : ∀ n : Nat, idxName path prog d n ≠ liveName path prog d :=
    idxName_ne_liveName path prog d
  have hlog0 : logName path prog d 0 = liveName path prog d := by simp [logName]
  have hlog : ∀ i : Nat, ¬i = 0 → logName path prog d i = idxName path prog d i := by
    intro i hi
    simp [logName, hi]
  obtain ⟨w8, he8, herr8, hst8, hnew8, hsrc8, hfr8⟩ :=
    shiftOne_spec path prog d 8 w herrs h9
      (by rw [hlog 8 (by decide)]; exact nn 8 9 (by decide))
  simp only [hlog 8 (by decide)] at hnew8 hsrc8 hfr8
  norm_num at hnew8 hfr8
  obtain ⟨w7, he7, herr7, hst7, hnew7, hsrc7, hfr7⟩ :=
    shiftOne_spec path prog d 7 w8 herr8 hsrc8
      (by rw [hlog 7 (by decide)]; exact nn 7 8 (by decide))
  simp only [hlog 7 (by decide)] at hnew7 hsrc7 hfr7
  norm_num at hnew7 hfr7
  obtain ⟨w6, he6, herr6, hst6, hnew6, hsrc6, hfr6⟩ :=
    shiftOne_spec path prog d 6 w7 herr7 hsrc7
      (by rw [hlog 6 (by decide)]; exact nn 6 7 (by decide))
  simp only [hlog 6 (by decide)] at hnew6 hsrc6 hfr6
  norm_num at hnew6 hfr6
  obtain ⟨w5, he5, herr5, hst5, hnew5, hsrc5, hfr5⟩ :=
    shiftOne_spec path prog d 5 w6 herr6 hsrc6
      (by rw [hlog 5 (by decide)]; exact nn 5 6 (by decide))
  simp only [hlog 5 (by decide)] at hnew5 hsrc5 hfr5
  norm_num at hnew5 hfr5
  obtain ⟨w4, he4, herr4, hst4, hnew4, hsrc4, hfr4⟩ :=
    shiftOne_spec path prog d 4 w5 herr5 hsrc5
      (by rw [hlog 4 (by decide)]; exact nn 4 5 (by decide))
  simp only [hlog 4 (by decide)] at hnew4 hsrc4 hfr4
  norm_num at hnew4 hfr4
  obtain ⟨w3, he3, herr3, hst3, hnew3, hsrc3, hfr3⟩ :=
    shiftOne_spec path prog d 3 w4 herr4 hsrc4
      (by rw [hlog 3 (by decide)]; exact nn 3 4 (by decide))
  simp only [hlog 3 (by decide)] at hnew3 hsrc3 hfr3
  norm_num at hnew3 hfr3
  obtain ⟨w2, he2, herr2, hst2, hnew2, hsrc2, hfr2⟩ :=
    shiftOne_spec path prog d 2 w3 herr3 hsrc3
      (by rw [hlog 2 (by decide)]; exact nn 2 3 (by decide))
  simp only [hlog 2 (by decide)] at hnew2 hsrc2 hfr2
  norm_num at hnew2 hfr2
  obtain ⟨w1, he1, herr1, hst1, hnew1, hsrc1, hfr1⟩ :=
    shiftOne_spec path prog d 1 w2 herr2 hsrc2
      (by rw [hlog 1 (by decide)]; exact nn 1 2 (by decide))
  simp only [hlog 1 (by decide)] at hnew1 hsrc1 hfr1
  norm_num at hnew1 hfr1
  obtain ⟨w0, he0, herr0, hst0, hnew0, hsrc0, hfr0⟩ :=
    shiftOne_spec path prog d 0 w1 herr1 hsrc1
      (by rw [hlog0]; exact ln 1)
  simp only [hlog0] at hnew0 hsrc0 hfr0
  norm_num at hnew0 hfr0
  have hchain : shiftChain path prog d [8, 7, 6, 5, 4, 3, 2, 1, 0] w = (none, w0) := by
    simp only [shiftChain, he8, he7, he6, he5, he4, he3, he2, he1, he0]
  have hB1 : fsLookup w0.fs (idxName path prog d 2)
      = fsLookup w.fs (idxName path prog d 1) := by
    rw [hfr0 (idxName path prog d 2) (nl 2) (nn 2 1 (by decide)),
        hnew1,
        hfr2 (idxName path prog d 1) (nn 1 2 (by decide)) (nn 1 3 (by decide)),
        hfr3 (idxName path prog d 1) (nn 1 3 (by decide)) (nn 1 4 (by decide)),
        hfr4 (idxName path prog d 1) (nn 1 4 (by decide)) (nn 1 5 (by decide)),
        hfr5 (idxName path prog d 1) (nn 1 5 (by decide)) (nn 1 6 (by decide)),
        hfr6 (idxName path prog d 1) (nn 1 6 (by decide)) (nn 1 7 (by decide)),
        hfr7 (idxName path prog d 1) (nn 1 7 (by decide)) (nn 1 8 (by decide)),
        hfr8 (idxName path prog d 1) (nn 1 8 (by decide)) (nn 1 9 (by decide))]
  have hB2 : fsLookup w0.fs (idxName path prog d 3)
      = fsLookup w.fs (idxName path prog d 2) := by
    rw [hfr0 (idxName path prog d 3) (nl 3) (nn 3 1 (by decide)),
        hfr1 (idxName path prog d 3) (nn 3 1 (by decide)) (nn 3 2 (by decide)),
        hnew2,
        hfr3 (idxName path prog d 2) (nn 2 3 (by decide)) (nn 2 4 (by decide)),
        hfr4 (idxName path prog d 2) (nn 2 4 (by decide)) (nn 2 5 (by decide)),
        hfr5 (idxName path prog d 2) (nn 2 5 (by decide)) (nn 2 6 (by decide)),
        hfr6 (idxName path prog d 2) (nn 2 6 (by decide)) (nn 2 7 (by decide)),
        hfr7 (idxName path prog d 2) (nn 2 7 (by decide)) (nn 2 8 (by decide)),
        hfr8 (idxName path prog d 2) (nn 2 8 (by decide)) (nn 2 9 (by decide))]
  have hB3 : fsLookup w0.fs (idxName path prog d 4)
      = fsLookup w.fs (idxName path prog d 3) := by
    rw [hfr0 (idxName path prog d 4) (nl 4) (nn 4 1 (by decide)),
        hfr1 (idxName path prog d 4) (nn 4 1 (by decide)) (nn 4 2 (by decide)),
        hfr2 (idxName path prog d 4) (nn 4 2 (by decide)) (nn 4 3 (by decide)),
        hnew3,
        hfr4 (idxName path prog d 3) (nn 3 4 (by decide)) (nn 3 5 (by decide)),
        hfr5 (idxName path prog d 3) (nn 3 5 (by decide)) (nn 3 6 (by decide)),
        hfr6 (idxName path prog d 3) (nn 3 6 (by decide)) (nn 3 7 (by decide)),
        hfr7 (idxName path prog d 3) (nn 3 7 (by decide)) (nn 3 8 (by decide)),
        hfr8 (idxName path prog d 3) (nn 3 8 (by decide)) (nn 3 9 (by decide))]
  have hB4 : fsLookup w0.fs (idxName path prog d 5)
      = fsLookup w.fs (idxName path prog d 4) := by
    rw [hfr0 (idxName path prog d 5) (nl 5) (nn 5 1 (by decide)),
        hfr1 (idxName path prog d 5) (nn 5 1 (by decide)) (nn 5 2 (by decide)),
        hfr2 (idxName path prog d 5) (nn 5 2 (by decide)) (nn 5 3 (by decide)),
        hfr3 (idxName path prog d 5) (nn 5 3 (by decide)) (nn 5 4 (by decide)),
        hnew4,
        hfr5 (idxName path prog d 4) (nn 4 5 (by decide)) (nn 4 6 (by decide)),
        hfr6 (idxName path prog d 4) (nn 4 6 (by decide)) (nn 4 7 (by decide)),
        hfr7 (idxName path prog d 4) (nn 4 7 (by decide)) (nn 4 8 (by decide)),
        hfr8 (idxName path prog d 4) (nn 4 8 (by decide)) (nn 4 9 (by decide))]
  have hB5 : fsLookup w0.fs (idxName path prog d 6)
      = fsLookup w.fs (idxName path prog d 5) := by
    rw [hfr0 (idxName path prog d 6) (nl 6) (nn 6 1 (by decide)),
        hfr1 (idxName path prog d 6) (nn 6 1 (by decide)) (nn 6 2 (by decide)),
        hfr2 (idxName path prog d 6) (nn 6 2 (by decide)) (nn 6 3 (by decide)),
        hfr3 (idxName path prog d 6) (nn 6 3 (by decide)) (nn 6 4 (by decide)),
        hfr4 (idxName path prog d 6) (nn 6 4 (by decide)) (nn 6 5 (by decide)),
        hnew5,
        hfr6 (idxName path prog d 5) (nn 5 6 (by decide)) (nn 5 7 (by decide)),
        hfr7 (idxName path prog d 5) (nn 5 7 (by decide)) (nn 5 8 (by decide)),
        hfr8 (idxName path prog d 5) (nn 5 8 (by decide)) (nn 5 9 (by decide))]
  have hB6 : fsLookup w0.fs (idxName path prog d 7)
      = fsLookup w.fs (idxName path prog d 6) := by
    rw [hfr0 (idxName path prog d 7) (nl 7) (nn 7 1 (by decide)),
        hfr1 (idxName path prog d 7) (nn 7 1 (by decide)) (nn 7 2 (by decide)),
        hfr2 (idxName path prog d 7) (nn 7 2 (by decide)) (nn 7 3 (by decide)),
        hfr3 (idxName path prog d 7) (nn 7 3 (by decide)) (nn 7 4 (by decide)),
        hfr4 (idxName path prog d 7) (nn 7 4 (by decide)) (nn 7 5 (by decide)),
        hfr5 (idxName path prog d 7) (nn 7 5 (by decide)) (nn 7 6 (by decide)),
        hnew6,
        hfr7 (idxName path prog d 6) (nn 6 7 (by decide)) (nn 6 8 (by decide)),
        hfr8 (idxName path prog d 6) (nn 6 8 (by decide)) (nn 6 9 (by decide))]
  have hB7 : fsLookup w0.fs (idxName path prog d 8)
      = fsLookup w.fs (idxName path prog d 7) := by
    rw [hfr0 (idxName path prog d 8) (nl 8) (nn 8 1 (by decide)),
        hfr1 (idxName path prog d 8) (nn 8 1 (by decide)) (nn 8 2 (by decide)),
        hfr2 (idxName path prog d 8) (nn 8 2 (by decide)) (nn 8 3 (by decide)),
        hfr3 (idxName path prog d 8) (nn 8 3 (by decide)) (nn 8 4 (by decide)),
        hfr4 (idxName path prog d 8) (nn 8 4 (by decide)) (nn 8 5 (by decide)),
        hfr5 (idxName path prog d 8) (nn 8 5 (by decide)) (nn 8 6 (by decide)),
        hfr6 (idxName path prog d 8) (nn 8 6 (by decide)) (nn 8 7 (by decide)),
        hnew7,
        hfr8 (idxName path prog d 7) (nn 7 8 (by decide)) (nn 7 9 (by decide))]
  have hB8 : fsLookup w0.fs (idxName path prog d 9)
      = fsLookup w.fs (idxName path prog d 8) := by
    rw [hfr0 (idxName path prog d 9) (nl 9) (nn 9 1 (by decide)),
        hfr1 (idxName path prog d 9) (nn 9 1 (by decide)) (nn 9 2 (by decide)),
        hfr2 (idxName path prog d 9) (nn 9 2 (by decide)) (nn 9 3 (by decide)),
        hfr3 (idxName path prog d 9) (nn 9 3 (by decide)) (nn 9 4 (by decide)),
        hfr4 (idxName path prog d 9) (nn 9 4 (by decide)) (nn 9 5 (by decide)),
        hfr5 (idxName path prog d 9) (nn 9 5 (by decide)) (nn 9 6 (by decide)),
        hfr6 (idxName path prog d 9) (nn 9 6 (by decide)) (nn 9 7 (by decide)),
        hfr7 (idxName path prog d 9) (nn 9 7 (by decide)) (nn 9 8 (by decide)),
        hnew8]
  refine ⟨w0, hchain, herr0, ?_, ?_, ?_, ?_, ?_⟩
  · rw [hst0, hst1, hst2, hst3, hst4, hst5, hst6, hst7, hst8]
  · exact hsrc0
  · rw [hnew0, hfr1 (liveName path prog d) (ln 1) (ln 2), hfr2 (liveName path prog d) (ln 2) (ln 3), hfr3 (liveName path prog d) (ln 3) (ln 4), hfr4 (liveName path prog d) (ln 4) (ln 5), hfr5 (liveName path prog d) (ln 5) (ln 6), hfr6 (liveName path prog d) (ln 6) (ln 7), hfr7 (liveName path prog d) (ln 7) (ln 8), hfr8 (liveName path prog d) (ln 8) (ln 9)]
  · intro j hj1 hj8
    interval_cases j
    exacts [hB1, hB2, hB3, hB4, hB5, hB6, hB7, hB8]
  · intro x hx hidx
    rw [hfr0 x hx (hidx 1 (by decide) (by decide)),
        hfr1 x (hidx 1 (by decide) (by decide)) (hidx 2 (by decide) (by decide)),
        hfr2 x (hidx 2 (by decide) (by decide)) (hidx 3 (by decide) (by decide)),
        hfr3 x (hidx 3 (by decide) (by decide)) (hidx 4 (by decide) (by decide)),
        hfr4 x (hidx 4 (by decide) (by decide)) (hidx 5 (by decide) (by decide)),
        hfr5 x (hidx 5 (by decide) (by decide)) (hidx 6 (by decide) (by decide)),
        hfr6 x (hidx 6 (by decide) (by decide)) (hidx 7 (by decide) (by decide)),
        hfr7 x (hidx 7 (by decide) (by decide)) (hidx 8 (by decide) (by decide)),
        hfr8 x (hidx 8 (by decide) (by decide)) (hidx 9 (by decide) (by decide))]


lemma rotateSize_spec (prog d : String) (mfs : Nat) (bdata c : List Byte)
    (efh : EasyFileHandler) (w : World)
    (hnb : efh.nbytes > mfs)
    (hfile : efh.file = some (liveName efh.path prog d))
    (hbuf : efh.buffer = some ⟨liveName efh.path prog d, true, bdata⟩)
    (hlook : fsLookup w.fs (liveName efh.path prog d) = some c)
    (herrs : w.errs = []) :
    ∃ w', rotateSize prog mfs d efh w = (none,
        { efh with
          file := none
          buffer := some ⟨liveName efh.path prog d, false, []⟩ }, w') ∧
      w'.errs = [] ∧ w'.stderrLines = w.stderrLines ∧
      fsLookup w'.fs (liveName efh.path prog d) = none ∧
      fsLookup w'.fs (idxName efh.path prog d 1) = some (c ++ bdata) ∧
      (∀ j, 2 ≤ j → j ≤ 9 → fsLookup w'.fs (idxName efh.path prog d j)
          = fsLookup w.fs (idxName efh.path prog d (j - 1))) ∧
      ∀ x, x ≠ liveName efh.path prog d →
        (∀ i, 1 ≤ i → i ≤ 9 → x ≠ idxName efh.path prog d i) →
        fsLookup w'.fs x = fsLookup w.fs x := by
  have nn : ∀ a b : Nat, Nat.repr a ≠ Nat.repr b →
      idxName efh.path prog d a ≠ idxName efh.path prog d b :=
    fun a b h => idxName_ne_idxName efh.path prog d h
  have ln : ∀ n : Nat, liveName efh.path prog d ≠ idxName efh.path prog d n :=
    liveName_ne_idxName efh.path prog d
  have nl : ∀ n : Nat, idxName efh.path prog d n ≠ liveName efh.path prog d :=
    idxName_ne_liveName efh.path prog d
  obtain ⟨w1, hbf, herr1, hst1, hlk1, hfr1⟩ :=
    bufFlush_spec ⟨liveName efh.path prog d, true, bdata⟩ w c rfl hlook
  have hlk1' : fsLookup w1.fs (liveName efh.path prog d) = some (c ++ bdata) := hlk1
  have hfr1' : ∀ x, x ≠ liveName efh.path prog d → fsLookup w1.fs x = fsLookup w.fs x := hfr1
  have herr1' : w1.errs = [] := by rw [herr1, herrs]
  have hgbf : goBufFlush efh w =
      ({ efh with buffer := some ⟨liveName efh.path prog d, true, []⟩ }, w1) := by
    simp only [goBufFlush, hbuf]
    rw [hbf]
  have hgc : goClose { efh with buffer := some ⟨liveName efh.path prog d, true, []⟩ } w1 =
      (none, { efh with buffer := some ⟨liveName efh.path prog d, false, []⟩ }, w1) := by
    simp only [goClose, hfile, popErr_nil herr1']
    rfl
  have hrem : ∃ w3, (if fileIsExist w1 (idxName efh.path prog d 9)
        then osRemove (idxName efh.path prog d 9) w1 else (none, w1)) = (none, w3) ∧
      w3.errs = [] ∧ w3.stderrLines = w1.stderrLines ∧
      fsLookup w3.fs (idxName efh.path prog d 9) = none ∧
      ∀ x, x ≠ idxName efh.path prog d 9 → fsLookup w3.fs x = fsLookup w1.fs x := by
    by_cases hex : fileIsExist w1 (idxName efh.path prog d 9)
    · refine ⟨{ w1 with fs := fsRemove w1.fs (idxName efh.path prog d 9) }, ?_, herr1', rfl, ?_, ?_⟩
      · simp [hex, osRemove, popErr_nil herr1']
      · simp [fsLookup_fsRemove]
      · intro x hx
        have hx' : idxName efh.path prog d 9 ≠ x := fun h => hx h.symm
        simp [fsLookup_fsRemove, hx']
    · have h0 : fsLookup w1.fs (idxName efh.path prog d 9) = none := by
        rw [← Option.not_isSome_iff_eq_none]
        simpa [fileIsExist] using hex
      exact ⟨w1, by simp [hex], herr1', rfl, h0, fun x _ => rfl⟩
  obtain ⟨w3, hremeq, herr3, hst3, h9none, hfr3⟩ := hrem
  obtain ⟨w4, hsc, herr4, hst4, hlive4, hidx1, hbplus, hfr4⟩ :=
    shiftChain_spec efh.path prog d w3 herr3 h9none
  have hnine : LOG_MAX_ROTATE_FILE_NUM - 1 = 9 := by decide
  have hlist : (List.range 9).reverse = [8, 7, 6, 5, 4, 3, 2, 1, 0] := by
    decide
  have hrseq : rotateSize prog mfs d efh w = (none,
      { efh with
        file := none
        buffer := some ⟨liveName efh.path prog d, false, []⟩ }, w4) := by
    unfold rotateSize
    rw [if_pos hnb]
    simp only [hgbf, hgc, hnine, hlist, hremeq, hsc]
  refine ⟨w4, hrseq, herr4, ?_, hlive4, ?_, ?_, ?_⟩
  · rw [hst4, hst3, hst1]
  · rw [hidx1, hfr3 (liveName efh.path prog d) (ln 9), hlk1']
  · intro j hj2 hj9
    interval_cases j
    · have hb : fsLookup w4.fs (idxName efh.path prog d 2) = fsLookup w3.fs (idxName efh.path prog d 1) :=
        hbplus 1 (by decide) (by decide)
      norm_num
      rw [hb, hfr3 (idxName efh.path prog d 1) (nn 1 9 (by decide)), hfr1' (idxName efh.path prog d 1) (nl 1)]
    · have hb : fsLookup w4.fs (idxName efh.path prog d 3) = fsLookup w3.fs (idxName efh.path prog d 2) :=
        hbplus 2 (by decide) (by decide)
      norm_num
      rw [hb, hfr3 (idxName efh.path prog d 2) (nn 2 9 (by decide)), hfr1' (idxName efh.path prog d 2) (nl 2)]
    · have hb : fsLookup w4.fs (idxName efh.path prog d 4) = fsLookup w3.fs (idxName efh.path prog d 3) :=
        hbplus 3 (by decide) (by decide)
      norm_num
      rw [hb, hfr3 (idxName efh.path prog d 3) (nn 3 9 (by decide)), hfr1' (idxName efh.path prog d 3) (nl 3)]
    · have hb : fsLookup w4.fs (idxName efh.path prog d 5) = fsLookup w3.fs (idxName efh.path prog d 4) :=
        hbplus 4 (by decide) (by decide)
      norm_num
      rw [hb, hfr3 (idxName efh.path prog d 4) (nn 4 9 (by decide)), hfr1' (idxName efh.path prog d 4) (nl 4)]
    · have hb : fsLookup w4.fs (idxName efh.path prog d 6) = fsLookup w3.fs (idxName efh.path prog d 5) :=
        hbplus 5 (by decide) (by decide)
      norm_num
      rw [hb, hfr3 (idxName efh.path prog d 5) (nn 5 9 (by decide)), hfr1' (idxName efh.path prog d 5) (nl 5)]
    · have hb : fsLookup w4.fs (idxName efh.path prog d 7) = fsLookup w3.fs (idxName efh.path prog d 6) :=
        hbplus 6 (by decide) (by decide)
      norm_num
      rw [hb, hfr3 (idxName efh.path prog d 6) (nn 6 9 (by decide)), hfr1' (idxName efh.path prog d 6) (nl 6)]
    · have hb : fsLookup w4.fs (idxName efh.path prog d 8) = fsLookup w3.fs (idxName efh.path prog d 7) :=
        hbplus 7 (by decide) (by decide)
      norm_num
      rw [hb, hfr3 (idxName efh.path prog d 7) (nn 7 9 (by decide)), hfr1' (idxName efh.path prog d 7) (nl 7)]
    · have hb : fsLookup w4.fs (idxName efh.path prog d 9) = fsLookup w3.fs (idxName efh.path prog d 8) :=
        hbplus 8 (by decide) (by decide)
      norm_num
      rw [hb, hfr3 (idxName efh.path prog d 8) (nn 8 9 (by decide)), hfr1' (idxName efh.path prog d 8) (nl 8)]
  · intro x hx hidx
    rw [hfr4 x hx hidx, hfr3 x (hidx 9 (by decide) (by decide)), hfr1' x hx]

lemma rotateDate_spec (prog d0 date : String) (bdata c : List Byte)
    (efh : EasyFileHandler) (w : World)
    (hcd : efh.currentDate ≠ date)
    (hfile : efh.file = some (liveName efh.path prog d0))
    (hbuf : efh.buffer = some ⟨liveName efh.path prog d0, true, bdata⟩)
    (hlook : fsLookup w.fs (liveName efh.path prog d0) = some c)
    (herrs : w.errs = []) :
    ∃ w', rotateDate date efh w = (none,
        { efh with
          file := none
          currentDate := date
          buffer := some ⟨liveName efh.path prog d0, false, []⟩ }, w') ∧
      w'.errs = [] ∧ w'.stderrLines = w.stderrLines ∧
      fsLookup w'.fs (liveName efh.path prog d0) = some (c ++ bdata) ∧
      ∀ x, x ≠ liveName efh.path prog d0 → fsLookup w'.fs x = fsLookup w.fs x := by
  obtain ⟨w1, hbf, herr1, hst1, hlk1, hfr1⟩ :=
    bufFlush_spec ⟨liveName efh.path prog d0, true, bdata⟩ w c rfl hlook
  have hlk1' : fsLookup w1.fs (liveName efh.path prog d0) = some (c ++ bdata) := hlk1
  have hfr1' : ∀ x, x ≠ liveName efh.path prog d0 → fsLookup w1.fs x = fsLookup w.fs x := hfr1
  have herr1' : w1.errs = [] := by rw [herr1, herrs]
  have hgbf : goBufFlush efh w =
      ({ efh with buffer := some ⟨liveName efh.path prog d0, true, []⟩ }, w1) := by
    simp only [goBufFlush, hbuf]
    rw [hbf]
  have hgc : goClose { efh with
      file := some (liveName efh.path prog d0)
      buffer := some ⟨liveName efh.path prog d0, true, []⟩ } w1 =
      (none, { efh with
        file := some (liveName efh.path prog d0)
        buffer := some ⟨liveName efh.path prog d0, false, []⟩ }, w1) := by
    simp only [goClose, popErr_nil herr1']
    rfl
  refine ⟨w1, ?_, herr1', hst1, hlk1', hfr1'⟩
  unfold rotateDate
  rw [if_pos hcd]
  simp only [hfile, hgbf, hgc]

lemma rotateFile_size_success (prog d : String) (mfs : Nat) (bdata c : List Byte)
    (efh : EasyFileHandler) (w : World)
    (hcd : efh.currentDate = d)
    (hnb : efh.nbytes > mfs)
    (hfile : efh.file = some (liveName efh.path prog d))
    (hbuf : efh.buffer = some ⟨liveName efh.path prog d, true, bdata⟩)
    (hlook : fsLookup w.fs (liveName efh.path prog d) = some c)
    (herrs : w.errs = []) :
    ∃ w', rotateFile prog mfs d efh w = (none,
        { efh with
          file := some (liveName efh.path prog d)
          nbytes := 0
          buffer := some ⟨liveName efh.path prog d, true, []⟩ }, w') ∧
      w'.errs = [] ∧ w'.stderrLines = w.stderrLines ∧
      fsLookup w'.fs (liveName efh.path prog d) = some [] ∧
      fsLookup w'.fs (idxName efh.path prog d 1) = some (c ++ bdata) ∧
      (∀ j, 2 ≤ j → j ≤ 9 → fsLookup w'.fs (idxName efh.path prog d j)
          = fsLookup w.fs (idxName efh.path prog d (j - 1))) ∧
      ∀ x, x ≠ liveName efh.path prog d →
        (∀ i, 1 ≤ i → i ≤ 9 → x ≠ idxName efh.path prog d i) →
        fsLookup w'.fs x = fsLookup w.fs x := by
  obtain ⟨wA, hrs, herrA, hstA, hliveA, hidx1A, hbplusA, hfrA⟩ :=
    rotateSize_spec prog d mfs bdata c efh w hnb hfile hbuf hlook herrs
  obtain ⟨wB, hop, herrB, hstB, hliveB, hfrB⟩ :=
    openIfNeeded_spec prog d
      { efh with
        file := none
        buffer := some ⟨liveName efh.path prog d, false, []⟩ } wA rfl herrA
  have hliveB' : fsLookup wB.fs (liveName efh.path prog d)
      = some ((fsLookup wA.fs (liveName efh.path prog d)).getD []) := hliveB
  have hfrB' : ∀ x, x ≠ liveName efh.path prog d → fsLookup wB.fs x = fsLookup wA.fs x := hfrB
  have hop' : openIfNeeded prog d
      { efh with
        file := none
        buffer := some ⟨liveName efh.path prog d, false, []⟩ } wA = (none,
      { efh with
        file := some (liveName efh.path prog d)
        nbytes := 0
        buffer := some ⟨liveName efh.path prog d, true, []⟩ }, wB) := hop
  have hrf : rotateFile prog mfs d efh w = (none,
      { efh with
        file := some (liveName efh.path prog d)
        nbytes := 0
        buffer := some ⟨liveName efh.path prog d, true, []⟩ }, wB) := by
    unfold rotateFile
    simp only [rotateDate_same hcd, hrs, hop']
  have nn : ∀ a b : Nat, Nat.repr a ≠ Nat.repr b →
      idxName efh.path prog d a ≠ idxName efh.path prog d b :=
    fun a b h => idxName_ne_idxName efh.path prog d h
  have ln : ∀ n : Nat, liveName efh.path prog d ≠ idxName efh.path prog d n :=
    liveName_ne_idxName efh.path prog d
  refine ⟨wB, hrf, herrB, by rw [hstB, hstA], ?_, ?_, ?_, ?_⟩
  · rw [hliveB', hliveA]
    rfl
  · rw [hfrB' _ (idxName_ne_liveName efh.path prog d 1), hidx1A]
  · intro j hj2 hj9
    have hj : idxName efh.path prog d j ≠ liveName efh.path prog d :=
      idxName_ne_liveName efh.path prog d j
    rw [hfrB' _ hj]
    exact hbplusA j hj2 hj9
  · intro x hx hidx
    rw [hfrB' x hx]
    exact hfrA x hx hidx

lemma rotateFile_date_success (prog d0 date : String) (mfs : Nat) (bdata c : List Byte)
    (efh : EasyFileHandler) (w : World)
    (hcd : efh.currentDate ≠ date)
    (hd0 : d0 ≠ date)
    (hnb : ¬efh.nbytes > mfs)
    (hfile : efh.file = some (liveName efh.path prog d0))
    (hbuf : efh.buffer = some ⟨liveName efh.path prog d0, true, bdata⟩)
    (hlook : fsLookup w.fs (liveName efh.path prog d0) = some c)
    (herrs : w.errs = []) :
    ∃ w', rotateFile prog mfs date efh w = (none,
        { efh with
          currentDate := date
          file := some (liveName efh.path prog date)
          nbytes := 0
          buffer := some ⟨liveName efh.path prog date, true, []⟩ }, w') ∧
      w'.errs = [] ∧ w'.stderrLines = w.stderrLines ∧
      fsLookup w'.fs (liveName efh.path prog d0) = some (c ++ bdata) ∧
      fsLookup w'.fs (liveName efh.path prog date)
        = some ((fsLookup w.fs (liveName efh.path prog date)).getD []) ∧
      ∀ x, x ≠ liveName efh.path prog d0 → x ≠ liveName efh.path prog date →
        fsLookup w'.fs x = fsLookup w.fs x := by
  have hlive_ne : liveName efh.path prog d0 ≠ liveName efh.path prog date :=
    fun h => hd0 (liveName_inj h)
  obtain ⟨wA, hrd, herrA, hstA, hlkA, hfrA⟩ :=
    rotateDate_spec prog d0 date bdata c efh w hcd hfile hbuf hlook herrs
  obtain ⟨wB, hop, herrB, hstB, hliveB, hfrB⟩ :=
    openIfNeeded_spec prog date
      { efh with
        file := none
        currentDate := date
        buffer := some ⟨liveName efh.path prog d0, false, []⟩ } wA rfl herrA
  have hliveB' : fsLookup wB.fs (liveName efh.path prog date)
      = some ((fsLookup wA.fs (liveName efh.path prog date)).getD []) := hliveB
  have hfrB' : ∀ x, x ≠ liveName efh.path prog date → fsLookup wB.fs x = fsLookup wA.fs x := hfrB
  have hop' : openIfNeeded prog date
      { efh with
        file := none
        currentDate := date
        buffer := some ⟨liveName efh.path prog d0, false, []⟩ } wA = (none,
      { efh with
        currentDate := date
        file := some (liveName efh.path prog date)
        nbytes := 0
        buffer := some ⟨liveName efh.path prog date, true, []⟩ }, wB) := hop
  have hnbA : ¬({ efh with
      file := (none : Option String)
      currentDate := date
      buffer := some ⟨liveName efh.path prog d0, false, []⟩ } : EasyFileHandler).nbytes > mfs := hnb
  have hrf : rotateFile prog mfs date efh w = (none,
      { efh with
        currentDate := date
        file := some (liveName efh.path prog date)
        nbytes := 0
        buffer := some ⟨liveName efh.path prog date, true, []⟩ }, wB) := by
    unfold rotateFile
    simp only [hrd, rotateSize_small hnbA, hop']
  refine ⟨wB, hrf, herrB, by rw [hstB, hstA], ?_, ?_, ?_⟩
  · rw [hfrB' _ hlive_ne, hlkA]
  · rw [hliveB', hfrA _ (fun h => hlive_ne h.symm)]
  · intro x hx1 hx2
    rw [hfrB' x hx2, hfrA x hx1]

/-! ## Concrete scenario states -/

/-- 40-byte payloads for the threshold scenario. -/
def pay40a : List Byte := List.replicate 40 1

def pay40b : List Byte := List.replicate 40 2

def pay40c : List Byte := List.replicate 40 3

def pay40d : List Byte := List.replicate 40 4

/-- A fresh sink over base path `"."` with a 1000-byte buffer, on an empty
filesystem with no injected errors. -/
def freshStart : EasyFileHandler × World :=
  (NewEasyFileHandler "." 1000, ⟨[], [], []⟩)

/-- Three same-day 40-byte writes with threshold 100. -/
def after3 : EasyFileHandler × World :=
  writeSeq "prog" 100 "2024-01-01" [pay40a, pay40b, pay40c] freshStart

/-- A fourth same-day 40-byte write with threshold 100. -/
def after4 : EasyFileHandler × World :=
  writeSeq "prog" 100 "2024-01-01" [pay40a, pay40b, pay40c, pay40d] freshStart

/-- Writes of 50, 50 and 10 bytes with threshold 100: after the first two the
counter sits exactly at the threshold. -/
def atThreshold : EasyFileHandler × World :=
  writeSeq "prog" 100 "2024-01-01"
    [List.replicate 50 1, List.replicate 50 2, List.replicate 10 3] freshStart

/-- Claim C5: the size-rollover condition is checked before the payload is
appended and uses a strict comparison (`nbytes > threshold`).  With threshold
100 and three same-day 40-byte writes, all three land in the live file's
stream (120 bytes, no backup yet); only the next write triggers the rotation,
which produces a 120-byte backup at index 1 and a fresh empty live file.
Moreover a counter exactly at the threshold (100 after writes of 50 and 50)
does not trigger a rotation. -/
theorem c5_strict_size_check_scenario :
    after3.1.nbytes = 120 ∧
    fsLookup after3.2.fs (idxName "." "prog" "2024-01-01" 1) = none ∧
    (fsLookup after3.2.fs (liveName "." "prog" "2024-01-01")).getD [] ++
        ((after3.1.buffer.map GoBuffer.data).getD []) = pay40a ++ pay40b ++ pay40c ∧
    fsLookup after4.2.fs (idxName "." "prog" "2024-01-01" 1)
      = some (pay40a ++ pay40b ++ pay40c) ∧
    (pay40a ++ pay40b ++ pay40c).length = 120 ∧
    fsLookup after4.2.fs (liveName "." "prog" "2024-01-01") = some [] ∧
    atThreshold.1.nbytes = 110 ∧
    fsLookup atThreshold.2.fs (idxName "." "prog" "2024-01-01" 1) = none := by
  decide

/-- Claim C8: calling `Flush` twice in a row with no intervening write
produces the same sink and on-disk state as calling it once, and when no
file is open `Flush` changes nothing at all. -/
theorem c8_flush_idempotent_and_noop :
    (∀ (efh : EasyFileHandler) (w : World),
      Flush (Flush efh w).1 (Flush efh w).2 = Flush efh w) ∧
    (∀ (efh : EasyFileHandler) (w : World), efh.file = none → Flush efh w = (efh, w)) := by
  constructor
  · intro efh w
    rcases hf : efh.file with _ | f
    · simp [Flush, hf]
    · rcases hb : efh.buffer with _ | b
      · simp [Flush, goBufFlush, hf, hb]
      · by_cases hd : b.data = []
        · simp [Flush, goBufFlush, bufFlush, hf, hb, hd]
        · by_cases hl : b.live = true
          · simp [Flush, goBufFlush, bufFlush, hf, hb, hd, hl]
          · simp [Flush, goBufFlush, bufFlush, hf, hb, hd, hl]
  · intro efh w hf
    simp [Flush, hf]

/-- Witness for C8 at a concrete closed sink state. -/
theorem c8_witness :
    Flush (NewEasyFileHandler "." 5) ⟨[], [], []⟩ = (NewEasyFileHandler "." 5, ⟨[], [], []⟩) :=
  c8_flush_idempotent_and_noop.2 (NewEasyFileHandler "." 5) ⟨[], [], []⟩ rfl

/-- A sink whose live file is open for 2024-01-01. -/
def c4Handler : EasyFileHandler :=
  { path := "."
    file := some (liveName "." "p" "2024-01-01")
    buffer := some ⟨liveName "." "p" "2024-01-01", true, []⟩
    bufferSize := 10
    currentDate := "2024-01-01"
    nbytes := 0 }

/-- A world scheduling a failure for the next syscall (the date-rollover
close). -/
def c4World : World :=
  ⟨[(liveName "." "p" "2024-01-01", [7])], [true], []⟩

/-- Counterexample to claim C4 as stated: when the close during a date
rollover fails, the rotation check aborts with the error, but the sink's
active file handle is NOT nil — the code returns before `efh.file = nil`. -/
theorem c4_counterexample_close_leaves_handle :
    (rotateFile "p" 100 "2024-01-02" c4Handler c4World).1 = some Err.close ∧
    ¬(rotateFile "p" 100 "2024-01-02" c4Handler c4World).2.1.file = none := by
  decide

/-- Claim C3: at a size rollover for the current date, the rotation deletes
the oldest backup (index 9), shifts each existing file at index `i` to
`i + 1` for `i` from 8 down to 0, and then opens a brand-new empty file at
index 0.  Extensional description: index 1 afterwards holds the flushed old
live stream, index `j` (2..9) holds what index `j - 1` held before, the
live name holds a fresh empty file registered as the open handle with the
byte counter reset, and no other file changes. -/
theorem c3_size_rollover_chain (prog d : String) (mfs : Nat) (bdata c : List Byte)
    (efh : EasyFileHandler) (w : World)
    (hcd : efh.currentDate = d)
    (hnb : efh.nbytes > mfs)
    (hfile : efh.file = some (liveName efh.path prog d))
    (hbuf : efh.buffer = some ⟨liveName efh.path prog d, true, bdata⟩)
    (hlook : fsLookup w.fs (liveName efh.path prog d) = some c)
    (herrs : w.errs = []) :
    ∃ w', rotateFile prog mfs d efh w = (none,
        { efh with
          file := some (liveName efh.path prog d)
          nbytes := 0
          buffer := some ⟨liveName efh.path prog d, true, []⟩ }, w') ∧
      w'.errs = [] ∧ w'.stderrLines = w.stderrLines ∧
      fsLookup w'.fs (liveName efh.path prog d) = some [] ∧
      fsLookup w'.fs (idxName efh.path prog d 1) = some (c ++ bdata) ∧
      (∀ j, 2 ≤ j → j ≤ 9 → fsLookup w'.fs (idxName efh.path prog d j)
          = fsLookup w.fs (idxName efh.path prog d (j - 1))) ∧
      ∀ x, x ≠ liveName efh.path prog d →
        (∀ i, 1 ≤ i → i ≤ 9 → x ≠ idxName efh.path prog d i) →
        fsLookup w'.fs x = fsLookup w.fs x :=
  rotateFile_size_success prog d mfs bdata c efh w hcd hnb hfile hbuf hlook herrs

/-- A sink over threshold (151 bytes counted, threshold 150 in the witness)
whose live file is open for 2024-01-01 with one pending buffered byte. -/
def c3Handler : EasyFileHandler :=
  { path := "."
    file := some (liveName "." "p" "2024-01-01")
    buffer := some ⟨liveName "." "p" "2024-01-01", true, [7]⟩
    bufferSize := 100
    currentDate := "2024-01-01"
    nbytes := 151 }

/-- A filesystem holding the live file, backup 1 and backup 9, error-free. -/
def c3World : World :=
  ⟨[(liveName "." "p" "2024-01-01", [1, 2]),
    (idxName "." "p" "2024-01-01" 1, [3]),
    (idxName "." "p" "2024-01-01" 9, [9])], [], []⟩

/-- Witness for C3 at a concrete state: backup 9 is discarded, backup 1
shifts to 2, the flushed live stream becomes backup 1, and a fresh live
file is opened. -/
theorem c3_witness :
    (rotateFile "p" 150 "2024-01-01" c3Handler c3World).1 = none ∧
    fsLookup (rotateFile "p" 150 "2024-01-01" c3Handler c3World).2.2.fs
      (idxName "." "p" "2024-01-01" 1) = some [1, 2, 7] ∧
    fsLookup (rotateFile "p" 150 "2024-01-01" c3Handler c3World).2.2.fs
      (idxName "." "p" "2024-01-01" 2) = some [3] ∧
    fsLookup (rotateFile "p" 150 "2024-01-01" c3Handler c3World).2.2.fs
      (idxName "." "p" "2024-01-01" 9) = none ∧
    fsLookup (rotateFile "p" 150 "2024-01-01" c3Handler c3World).2.2.fs
      (liveName "." "p" "2024-01-01") = some [] := by
  obtain ⟨w', heq, herr, hst, hlive, hidx1, hb, hfr⟩ :=
    c3_size_rollover_chain "p" "2024-01-01" 150 [7] [1, 2] c3Handler c3World
      rfl (by decide) rfl rfl (by decide) rfl
  refine ⟨?_, ?_, ?_, ?_, ?_⟩
  · rw [heq]
  · rw [heq]
    exact hidx1
  · rw [heq]
    exact (hb 2 (by decide) (by decide)).trans (by decide)
  · rw [heq]
    exact (hb 9 (by decide) (by decide)).trans (by decide)
  · rw [heq]
    exact hlive

/-- The failure path of a write whose date rolls over while `nbytes` still
exceeds the threshold: the date branch closes the file and clears the
handle, `nbytes` is not reset, so the size branch closes a nil handle and
aborts with `os.ErrInvalid`. -/
lemma rotateFile_stale_size_fails (prog d0 date : String) (mfs : Nat) (bdata c : List Byte)
    (efh : EasyFileHandler) (w : World)
    (hcd : efh.currentDate ≠ date)
    (hnb : efh.nbytes > mfs)
    (hfile : efh.file = some (liveName efh.path prog d0))
    (hbuf : efh.buffer = some ⟨liveName efh.path prog d0, true, bdata⟩)
    (hlook : fsLookup w.fs (liveName efh.path prog d0) = some c)
    (herrs : w.errs = []) :
    ∃ w', rotateFile prog mfs date efh w = (some Err.invalid,
        { efh with
          file := none
          currentDate := date
          buffer := some ⟨liveName efh.path prog d0, false, []⟩ }, w') ∧
      w'.errs = [] ∧ w'.stderrLines = w.stderrLines ∧
      fsLookup w'.fs (liveName efh.path prog d0) = some (c ++ bdata) ∧
      ∀ x, x ≠ liveName efh.path prog d0 → fsLookup w'.fs x = fsLookup w.fs x := by
  obtain ⟨wA, hrd, herrA, hstA, hlkA, hfrA⟩ :=
    rotateDate_spec prog d0 date bdata c efh w hcd hfile hbuf hlook herrs
  have hrs : rotateSize prog mfs date
      { efh with
        file := none
        currentDate := date
        buffer := some ⟨liveName efh.path prog d0, false, []⟩ } wA = (some Err.invalid,
      { efh with
        file := none
        currentDate := date
        buffer := some ⟨liveName efh.path prog d0, false, []⟩ }, wA) := by
    have hnbA : ({ efh with
        file := (none : Option String)
        currentDate := date
        buffer := some ⟨liveName efh.path prog d0, false, []⟩ } : EasyFileHandler).nbytes > mfs := hnb
    unfold rotateSize
    rw [if_pos hnbA]
    rfl
  refine ⟨wA, ?_, herrA, hstA, hlkA, hfrA⟩
  unfold rotateFile
  simp only [hrd, hrs]

/-- Claim C10: the date-rollover branch clears the active handle without
resetting `nbytes`, so the first write of a new day after a day whose file
stream already exceeded the threshold runs the size branch against a nil
handle: the write fails with `os.ErrInvalid` (zero bytes accepted, no file
opened for the new date), instead of rotating cleanly into the new day. -/
theorem c10_first_write_of_new_day_fails (prog d0 date : String) (mfs : Nat)
    (bdata c data : List Byte) (efh : EasyFileHandler) (w : World)
    (hcd : efh.currentDate = d0)
    (hd : d0 ≠ date)
    (hnb : efh.nbytes > mfs)
    (hfile : efh.file = some (liveName efh.path prog d0))
    (hbuf : efh.buffer = some ⟨liveName efh.path prog d0, true, bdata⟩)
    (hlook : fsLookup w.fs (liveName efh.path prog d0) = some c)
    (herrs : w.errs = []) :
    (Write prog mfs date data efh w).1 = (0, some Err.invalid) ∧
    (Write prog mfs date data efh w).2.1.file = none ∧
    (Write prog mfs date data efh w).2.1.nbytes = efh.nbytes ∧
    (Write prog mfs date data efh w).2.1.currentDate = date ∧
    fsLookup (Write prog mfs date data efh w).2.2.fs (liveName efh.path prog d0)
      = some (c ++ bdata) ∧
    fsLookup (Write prog mfs date data efh w).2.2.fs (liveName efh.path prog date)
      = fsLookup w.fs (liveName efh.path prog date) := by
  have hcd' : efh.currentDate ≠ date := by
    rw [hcd]
    exact hd
  have hlive_ne : liveName efh.path prog date ≠ liveName efh.path prog d0 :=
    fun h => hd (liveName_inj h).symm
  obtain ⟨w', heq, herr, hst, hlk, hfr⟩ :=
    rotateFile_stale_size_fails prog d0 date mfs bdata c efh w hcd' hnb hfile hbuf hlook herrs
  have hw : Write prog mfs date data efh w = ((0, some Err.invalid),
      { efh with
        file := none
        currentDate := date
        buffer := some ⟨liveName efh.path prog d0, false, []⟩ },
      { w' with stderrLines := w'.stderrLines ++ [Err.message Err.invalid ++ "\n"] }) := by
    unfold Write
    simp only [heq]
  rw [hw]
  refine ⟨rfl, rfl, rfl, rfl, hlk, ?_⟩
  exact hfr (liveName efh.path prog date) hlive_ne

/-- A sink over threshold with the chain files 0, 1 and 2 present; the
schedule lets the close and the first rename succeed and fails the second
rename (index 1 to 2). -/
def c7Handler : EasyFileHandler :=
  { path := "."
    file := some (liveName "." "p" "2024-01-01")
    buffer := some ⟨liveName "." "p" "2024-01-01", true, []⟩
    bufferSize := 50
    currentDate := "2024-01-01"
    nbytes := 200 }

/-- The world for the mid-chain rename failure, generic in the three file
contents. -/
def c7World (c0 c1 c2 : List Byte) : World :=
  ⟨[(liveName "." "p" "2024-01-01", c0),
    (idxName "." "p" "2024-01-01" 1, c1),
    (idxName "." "p" "2024-01-01" 2, c2)], [false, false, true], []⟩

/-- Claim C7: when a rename fails mid-chain (here the rename of index 1 to
index 2, after index 2 was already moved to index 3), the rotation aborts
and returns that error to the caller of `Write`; the renames already
performed are not undone, leaving the chain partially shifted: the old
index-2 file now sits at index 3, index 2 is gone, and indices 1 and 0 are
untouched. -/
theorem c7_rename_failure_partial_shift (c0 c1 c2 : List Byte) :
    (rotateFile "p" 100 "2024-01-01" c7Handler (c7World c0 c1 c2)).1 = some Err.rename ∧
    (rotateFile "p" 100 "2024-01-01" c7Handler (c7World c0 c1 c2)).2.1.file = none ∧
    fsLookup (rotateFile "p" 100 "2024-01-01" c7Handler (c7World c0 c1 c2)).2.2.fs
      (idxName "." "p" "2024-01-01" 3) = some c2 ∧
    fsLookup (rotateFile "p" 100 "2024-01-01" c7Handler (c7World c0 c1 c2)).2.2.fs
      (idxName "." "p" "2024-01-01" 2) = none ∧
    fsLookup (rotateFile "p" 100 "2024-01-01" c7Handler (c7World c0 c1 c2)).2.2.fs
      (idxName "." "p" "2024-01-01" 1) = some c1 ∧
    fsLookup (rotateFile "p" 100 "2024-01-01" c7Handler (c7World c0 c1 c2)).2.2.fs
      (liveName "." "p" "2024-01-01") = some c0 ∧
    (Write "p" 100 "2024-01-01" (List.replicate 5 9) c7Handler (c7World c0 c1 c2)).1
      = (0, some Err.rename) :=
  ⟨rfl, rfl, rfl, rfl, rfl, rfl, rfl⟩

/-- Claim C1: on every rotation a `Write` call performs (date rollover with
the counter under the threshold, or size rollover on the same date), the
pending buffered bytes are flushed to the old file before it is closed, so
when the rotation check succeeds the whole accepted stream of the old live
file (`c ++ bdata`: its on-disk content plus the pending buffer) lands in
exactly one file — the old date's live file on a date rollover, the index-1
backup on a size rollover — while the new live file starts from content
unrelated to it and every other file is unchanged. -/
theorem c1_rotation_preserves_accepted_bytes (prog d0 date : String) (mfs : Nat)
    (bdata c : List Byte) (efh : EasyFileHandler) (w : World)
    (hcd : efh.currentDate = d0)
    (hfile : efh.file = some (liveName efh.path prog d0))
    (hbuf : efh.buffer = some ⟨liveName efh.path prog d0, true, bdata⟩)
    (hlook : fsLookup w.fs (liveName efh.path prog d0) = some c)
    (herrs : w.errs = [])
    (htrig : d0 ≠ date ∨ efh.nbytes > mfs)
    (hsucc : (rotateFile prog mfs date efh w).1 = none) :
    (d0 = date →
      fsLookup (rotateFile prog mfs date efh w).2.2.fs (idxName efh.path prog date 1)
        = some (c ++ bdata) ∧
      fsLookup (rotateFile prog mfs date efh w).2.2.fs (liveName efh.path prog date)
        = some [] ∧
      (∀ j, 2 ≤ j → j ≤ 9 →
        fsLookup (rotateFile prog mfs date efh w).2.2.fs (idxName efh.path prog date j)
          = fsLookup w.fs (idxName efh.path prog date (j - 1))) ∧
      (∀ x, x ≠ liveName efh.path prog date →
        (∀ i, 1 ≤ i → i ≤ 9 → x ≠ idxName efh.path prog date i) →
        fsLookup (rotateFile prog mfs date efh w).2.2.fs x = fsLookup w.fs x)) ∧
    (d0 ≠ date →
      fsLookup (rotateFile prog mfs date efh w).2.2.fs (liveName efh.path prog d0)
        = some (c ++ bdata) ∧
      fsLookup (rotateFile prog mfs date efh w).2.2.fs (liveName efh.path prog date)
        = some ((fsLookup w.fs (liveName efh.path prog date)).getD []) ∧
      ∀ x, x ≠ liveName efh.path prog d0 → x ≠ liveName efh.path prog date →
        fsLookup (rotateFile prog mfs date efh w).2.2.fs x = fsLookup w.fs x) := by
  by_cases hdd : d0 = date
  · subst hdd
    have hnb : efh.nbytes > mfs := by
      rcases htrig with h | h
      · exact absurd rfl h
      · exact h
    obtain ⟨w', heq, herr, hst, hlive, hidx1, hb, hfr⟩ :=
      rotateFile_size_success prog d0 mfs bdata c efh w hcd hnb hfile hbuf hlook herrs
    constructor
    · intro _
      rw [heq]
      exact ⟨hidx1, hlive, hb, hfr⟩
    · intro h
      exact absurd rfl h
  · have hcd' : efh.currentDate ≠ date := by
      rw [hcd]
      exact hdd
    by_cases hnb : efh.nbytes > mfs
    · obtain ⟨w', heq, _, _, _, _⟩ :=
        rotateFile_stale_size_fails prog d0 date mfs bdata c efh w hcd' hnb hfile hbuf hlook herrs
      rw [heq] at hsucc
      simp at hsucc
    · obtain ⟨w', heq, herr, hst, hold, hnew, hfr⟩ :=
        rotateFile_date_success prog d0 date mfs bdata c efh w hcd' hdd hnb hfile hbuf hlook herrs
      constructor
      · intro h
        exact absurd h hdd
      · intro _
        rw [heq]
        exact ⟨hold, hnew, hfr⟩

/-- Witness for C1 at a concrete size rollover: the 120-byte-plus-buffer
stream of the live file reappears untouched as the index-1 backup. -/
theorem c1_witness :
    fsLookup (rotateFile "p" 150 "2024-01-01" c3Handler c3World).2.2.fs
      (idxName "." "p" "2024-01-01" 1) = some [1, 2, 7] :=
  ((c1_rotation_preserves_accepted_bytes "p" "2024-01-01" "2024-01-01" 150 [7] [1, 2]
    c3Handler c3World rfl rfl rfl (by decide) rfl (Or.inr (by decide)) (by decide)).1 rfl).1

/-! ## Error paths -/

lemma goBufFlush_file (efh : EasyFileHandler) (w : World) :
    (goBufFlush efh w).1.file = efh.file := by
  cases hb : efh.buffer <;> simp [goBufFlush, hb]

lemma goClose_err {efh : EasyFileHandler} {w : World} {e : Err}
    {efh' : EasyFileHandler} {w' : World}
    (h : goClose efh w = (some e, efh', w')) :
    efh' = efh ∧ (e = Err.close ∧ efh.file.isSome ∨ e = Err.invalid ∧ efh.file = none) := by
  cases hf : efh.file with
  | none =>
    simp only [goClose, hf, Prod.mk.injEq] at h
    obtain ⟨h1, h2, h3⟩ := h
    exact ⟨h2.symm, Or.inr ⟨(Option.some.inj h1).symm, rfl⟩⟩
  | some f =>
    simp only [goClose, hf] at h
    by_cases hp : (popErr w).1 = true
    · rw [if_pos hp] at h
      simp only [Prod.mk.injEq] at h
      exact ⟨h.2.1.symm, Or.inl ⟨(Option.some.inj h.1).symm, rfl⟩⟩
    · rw [if_neg hp] at h
      simp only [Prod.mk.injEq] at h
      exact absurd h.1 (by simp)

lemma osRemove_err {p : String} {w : World} {e : Err} {w' : World}
    (h : osRemove p w = (some e, w')) : e = Err.remove := by
  simp only [osRemove] at h
  by_cases hp : (popErr w).1 = true
  · rw [if_pos hp] at h
    simp only [Prod.mk.injEq] at h
    exact (Option.some.inj h.1).symm
  · rw [if_neg hp] at h
    simp only [Prod.mk.injEq] at h
    exact absurd h.1 (by simp)

lemma osRename_err {src dst : String} {w : World} {e : Err} {w' : World}
    (h : osRename src dst w = (some e, w')) : e = Err.rename := by
  simp only [osRename] at h
  by_cases hp : (popErr w).1 = true
  · rw [if_pos hp] at h
    simp only [Prod.mk.injEq] at h
    exact (Option.some.inj h.1).symm
  · rw [if_neg hp] at h
    cases hl : fsLookup (popErr w).2.fs src <;> rw [hl] at h <;>
      simp only [Prod.mk.injEq] at h <;> exact absurd h.1 (by simp)

lemma osOpenFile_err {p : String} {w : World} {e : Err} {w' : World}
    (h : osOpenFile p w = (some e, w')) : e = Err.openFail := by
  simp only [osOpenFile] at h
  by_cases hp : (popErr w).1 = true
  · rw [if_pos hp] at h
    simp only [Prod.mk.injEq] at h
    exact (Option.some.inj h.1).symm
  · rw [if_neg hp] at h
    cases hl : fsLookup (popErr w).2.fs p <;> rw [hl] at h <;>
      simp only [Prod.mk.injEq] at h <;> exact absurd h.1 (by simp)

lemma shiftOne_err {path prog d : String} {i : Nat} {w : World} {e : Err} {w' : World}
    (h : shiftOne path prog d i w = (some e, w')) : e = Err.rename := by
  unfold shiftOne at h
  by_cases hex : fileIsExist w (logName path prog d i) = true
  · rw [if_pos hex] at h
    exact osRename_err h
  · rw [if_neg hex] at h
    simp only [Prod.mk.injEq] at h
    exact absurd h.1 (by simp)

lemma shiftChain_err {path prog d : String} {e : Err} :
    ∀ (l : List Nat) (w : World) (w' : World),
      shiftChain path prog d l w = (some e, w') → e = Err.rename := by
  intro l
  induction l with
  | nil =>
    intro w w' h
    simp only [shiftChain, Prod.mk.injEq] at h
    exact absurd h.1 (by simp)
  | cons i rest ih =>
    intro w w' h
    simp only [shiftChain] at h
    rcases hs : shiftOne path prog d i w with ⟨eo, w1⟩
    rw [hs] at h
    cases eo with
    | some eA =>
      simp only [Prod.mk.injEq] at h
      rw [← (Option.some.inj h.1)]
      exact shiftOne_err hs
    | none =>
      simp only at h
      exact ih w1 w' h

lemma openIfNeeded_err {prog date : String} {efh : EasyFileHandler} {w : World}
    {e : Err} {efh' : EasyFileHandler} {w' : World}
    (h : openIfNeeded prog date efh w = (some e, efh', w')) :
    e = Err.openFail ∧ efh'.file = none := by
  unfold openIfNeeded at h
  cases hf : efh.file with
  | some f =>
    rw [hf] at h
    simp only [Prod.mk.injEq] at h
    exact absurd h.1 (by simp)
  | none =>
    rw [hf] at h
    dsimp only at h
    rcases ho : osOpenFile (liveName efh.path prog date) w with ⟨eo, w1⟩
    rw [ho] at h
    cases eo with
    | some eA =>
      simp only [Prod.mk.injEq] at h
      refine ⟨?_, ?_⟩
      · rw [← (Option.some.inj h.1)]
        exact osOpenFile_err ho
      · rw [← h.2.1]
    | none =>
      simp only [Prod.mk.injEq] at h
      exact absurd h.1 (by simp)

lemma rotateDate_err {date : String} {efh : EasyFileHandler} {w : World}
    {e : Err} {efh' : EasyFileHandler} {w' : World}
    (h : rotateDate date efh w = (some e, efh', w')) :
    e = Err.close ∧ efh'.file = efh.file := by
  unfold rotateDate at h
  by_cases hc : efh.currentDate ≠ date
  · rw [if_pos hc] at h
    cases hf : efh.file with
    | none =>
      rw [hf] at h
      simp only [Prod.mk.injEq] at h
      exact absurd h.1 (by simp)
    | some f =>
      rw [hf] at h
      dsimp only at h
      rcases hg : goClose (goBufFlush efh w).1 (goBufFlush efh w).2 with ⟨eo, efh2, w2⟩
      rw [hg] at h
      cases eo with
      | some eA =>
        simp only [Prod.mk.injEq] at h
        obtain ⟨hclose, hcases⟩ := goClose_err hg
        refine ⟨?_, ?_⟩
        · rcases hcases with ⟨he, _⟩ | ⟨_, hnone⟩
          · rw [← (Option.some.inj h.1), he]
          · rw [goBufFlush_file] at hnone
            rw [hf] at hnone
            exact absurd hnone (by simp)
        · rw [← h.2.1, hclose, goBufFlush_file]
          exact hf
      | none =>
        simp only [Prod.mk.injEq] at h
        exact absurd h.1 (by simp)
  · rw [if_neg hc] at h
    simp only [Prod.mk.injEq] at h
    exact absurd h.1 (by simp)

lemma rotateDate_ok_file {date : String} {efh : EasyFileHandler} {w : World}
    {efh' : EasyFileHandler} {w' : World}
    (h : rotateDate date efh w = (none, efh', w')) :
    efh'.file = efh.file ∨ efh'.file = none := by
  unfold rotateDate at h
  by_cases hc : efh.currentDate ≠ date
  · rw [if_pos hc] at h
    cases hf : efh.file with
    | none =>
      rw [hf] at h
      simp only [Prod.mk.injEq] at h
      rw [← h.2.1]
      exact Or.inr rfl
    | some f =>
      rw [hf] at h
      dsimp only at h
      rcases hg : goClose (goBufFlush efh w).1 (goBufFlush efh w).2 with ⟨eo, efh2, w2⟩
      rw [hg] at h
      cases eo with
      | some eA =>
        simp only [Prod.mk.injEq] at h
        exact absurd h.1 (by simp)
      | none =>
        simp only [Prod.mk.injEq] at h
        rw [← h.2.1]
        exact Or.inr rfl
  · rw [if_neg hc] at h
    simp only [Prod.mk.injEq] at h
    rw [← h.2.1]
    exact Or.inl rfl

lemma rotateSize_err {prog date : String} {mfs : Nat} {efh : EasyFileHandler} {w : World}
    {e : Err} {efh' : EasyFileHandler} {w' : World}
    (h : rotateSize prog mfs date efh w = (some e, efh', w')) :
    (e = Err.close ∧ efh'.file = efh.file ∧ efh.file.isSome) ∨
    (e = Err.invalid ∧ efh'.file = none ∧ efh.file = none) ∨
    ((e = Err.remove ∨ e = Err.rename) ∧ efh'.file = none) := by
  unfold rotateSize at h
  by_cases hnb : efh.nbytes > mfs
  · rw [if_pos hnb] at h
    dsimp only at h
    rcases hg : goClose (goBufFlush efh w).1 (goBufFlush efh w).2 with ⟨eo, efh2, w2⟩
    rw [hg] at h
    cases eo with
    | some eA =>
      simp only [Prod.mk.injEq] at h
      obtain ⟨hclose, hcases⟩ := goClose_err hg
      rcases hcases with ⟨he, hsome⟩ | ⟨he, hnone⟩
      · left
        rw [goBufFlush_file] at hsome
        refine ⟨by rw [← (Option.some.inj h.1), he], ?_, hsome⟩
        rw [← h.2.1, hclose, goBufFlush_file]
      · right; left
        rw [goBufFlush_file] at hnone
        refine ⟨by rw [← (Option.some.inj h.1), he], ?_, hnone⟩
        rw [← h.2.1, hclose, goBufFlush_file]
        exact hnone
    | none =>
      dsimp only at h
      rcases hrm : (if fileIsExist w2 (idxName efh2.path prog date (LOG_MAX_ROTATE_FILE_NUM - 1)) = true
          then osRemove (idxName efh2.path prog date (LOG_MAX_ROTATE_FILE_NUM - 1)) w2
          else (none, w2)) with ⟨eo2, w3⟩
      rw [hrm] at h
      cases eo2 with
      | some eB =>
        simp only [Prod.mk.injEq] at h
        right; right
        constructor
        · left
          rw [← (Option.some.inj h.1)]
          by_cases hex : fileIsExist w2 (idxName efh2.path prog date (LOG_MAX_ROTATE_FILE_NUM - 1)) = true
          · rw [if_pos hex] at hrm
            exact osRemove_err hrm
          · rw [if_neg hex] at hrm
            simp only [Prod.mk.injEq] at hrm
            exact absurd hrm.1 (by simp)
        · rw [← h.2.1]
      | none =>
        simp only [Prod.mk.injEq] at h
        right; right
        constructor
        · right
          rcases hsc : shiftChain efh2.path prog date
              ((List.range (LOG_MAX_ROTATE_FILE_NUM - 1)).reverse) w3 with ⟨eo3, w4⟩
          rw [hsc] at h
          simp only [Prod.mk.injEq] at h
          rw [h.1] at hsc
          exact shiftChain_err _ _ _ hsc
        · rcases hsc : shiftChain efh2.path prog date
              ((List.range (LOG_MAX_ROTATE_FILE_NUM - 1)).reverse) w3 with ⟨eo3, w4⟩
          rw [hsc] at h
          simp only [Prod.mk.injEq] at h
          rw [← h.2.1]
  · rw [if_neg hnb] at h
    simp only [Prod.mk.injEq] at h
    exact absurd h.1 (by simp)

lemma rotateFile_err {prog date : String} {mfs : Nat} {efh : EasyFileHandler} {w : World}
    {e : Err} {efh' : EasyFileHandler} {w' : World}
    (h : rotateFile prog mfs date efh w = (some e, efh', w')) :
    (e = Err.close → efh'.file = efh.file) ∧ (e ≠ Err.close → efh'.file = none) := by
  unfold rotateFile at h
  rcases hrd : rotateDate date efh w with ⟨eo, efh1, w1⟩
  rw [hrd] at h
  cases eo with
  | some eA =>
    simp only [Prod.mk.injEq] at h
    obtain ⟨he, hfl⟩ := rotateDate_err hrd
    constructor
    · intro _
      rw [← h.2.1, hfl]
    · intro hne
      exact absurd (by rw [← (Option.some.inj h.1), he]) hne
  | none =>
    dsimp only at h
    rcases hrs : rotateSize prog mfs date efh1 w1 with ⟨eo2, efh2, w2⟩
    rw [hrs] at h
    cases eo2 with
    | some eB =>
      simp only [Prod.mk.injEq] at h
      have hok := rotateDate_ok_file hrd
      rcases rotateSize_err hrs with ⟨he, hfl, hsome⟩ | ⟨he, hfl, _⟩ | ⟨he, hfl⟩
      · constructor
        · intro _
          rw [← h.2.1, hfl]
          rcases hok with h1 | h1
          · exact h1
          · rw [h1] at hsome
            exact absurd hsome (by simp)
        · intro hne
          exact absurd (by rw [← (Option.some.inj h.1), he]) hne
      · constructor
        · intro hcl
          rw [← (Option.some.inj h.1), he] at hcl
          exact absurd hcl (by simp)
        · intro _
          rw [← h.2.1, hfl]
      · constructor
        · intro hcl
          rw [← (Option.some.inj h.1)] at hcl
          rcases he with he | he <;> rw [he] at hcl <;> exact absurd hcl (by simp)
        · intro _
          rw [← h.2.1, hfl]
    | none =>
      dsimp only at h
      obtain ⟨he, hfl⟩ := openIfNeeded_err h
      constructor
      · intro hcl
        rw [he] at hcl
        exact absurd hcl (by simp)
      · intro _
        exact hfl

/-- Claim C6: whenever the rotation check fails, `Write` returns zero bytes
together with that error, leaves the sink and the filesystem exactly as the
failed rotation check left them (none of the payload is appended anywhere),
and additionally writes the error message to the process's standard error
stream. -/
theorem c6_write_error_path (prog date : String) (mfs : Nat) (data : List Byte)
    (efh : EasyFileHandler) (w : World) (e : Err)
    (h : (rotateFile prog mfs date efh w).1 = some e) :
    Write prog mfs date data efh w = ((0, some e),
      (rotateFile prog mfs date efh w).2.1,
      { (rotateFile prog mfs date efh w).2.2 with
        stderrLines := (rotateFile prog mfs date efh w).2.2.stderrLines
          ++ [Err.message e ++ "\n"] }) := by
  rcases hr : rotateFile prog mfs date efh w with ⟨eo, efh1, w1⟩
  have heo : eo = some e := by
    rw [hr] at h
    exact h
  subst heo
  unfold Write
  rw [hr]

/-- Witness for C6: a close failure during a date rollover is surfaced by
`Write` as `(0, error)` and logged to stderr. -/
theorem c6_witness :
    (Write "p" 100 "2024-01-02" [1] c4Handler c4World).1 = (0, some Err.close) ∧
    (Write "p" 100 "2024-01-02" [1] c4Handler c4World).2.2.stderrLines
      = ["close error\n"] := by
  have h := c6_write_error_path "p" "2024-01-02" 100 [1] c4Handler c4World Err.close (by decide)
  rw [h]
  exact ⟨rfl, by decide⟩

/-- Claim C4, amended: every filesystem error at any step of the rotation
check aborts the check and is propagated to the caller of `Write` as
`(0, error)`.  After a remove, rename or open failure (and after the
nil-handle close) the sink's active file handle is nil, so the next write
retries the open; after a failed `Close` (date or size rollover), however,
the handle keeps its previous non-nil value, because the code returns
before `efh.file = nil`. -/
theorem c4_amended_error_propagation (prog date : String) (mfs : Nat) (data : List Byte)
    (efh : EasyFileHandler) (w : World) (e : Err)
    (h : (rotateFile prog mfs date efh w).1 = some e) :
    (Write prog mfs date data efh w).1 = (0, some e) ∧
    (e ≠ Err.close → (rotateFile prog mfs date efh w).2.1.file = none) ∧
    (e = Err.close → (rotateFile prog mfs date efh w).2.1.file = efh.file) := by
  rcases hr : rotateFile prog mfs date efh w with ⟨eo, efh1, w1⟩
  have heo : eo = some e := by
    rw [hr] at h
    exact h
  subst heo
  have hh := rotateFile_err hr
  refine ⟨?_, ?_, ?_⟩
  · unfold Write
    rw [hr]
  · intro hne
    exact hh.2 hne
  · intro hcl
    exact hh.1 hcl

/-- Witness for C4's amended statement at a concrete close failure: the
error is propagated and the handle is left untouched (non-nil). -/
theorem c4_amended_witness :
    (Write "p" 100 "2024-01-02" [1] c4Handler c4World).1 = (0, some Err.close) ∧
    (rotateFile "p" 100 "2024-01-02" c4Handler c4World).2.1.file = c4Handler.file := by
  have h := c4_amended_error_propagation "p" "2024-01-02" 100 [1] c4Handler c4World
    Err.close (by decide)
  exact ⟨h.1, h.2.2 rfl⟩

/-! ## The set of file names a write can create (claim C2) -/

/-- The names present in the filesystem. -/
def fsKeys (fs : Fs) : List String := fs.map Prod.fst

/-- The ten chain names (indices 0..9) of a date. -/
def chainNames (path prog date : String) : List String :=
  (List.range LOG_MAX_ROTATE_FILE_NUM).map (logName path prog date)

lemma fsKeys_fsAppend (fs : Fs) (p : String) (bs : List Byte) :
    fsKeys (fsAppend fs p bs) = fsKeys fs := by
  induction fs with
  | nil => rfl
  | cons e rest ih =>
    obtain ⟨n, c⟩ := e
    by_cases hnp : n = p <;> simp [fsAppend, fsKeys, hnp] at ih ⊢ <;> exact ih

lemma fsKeys_fsRemove (fs : Fs) (p : String) :
    fsKeys (fsRemove fs p) ⊆ fsKeys fs := by
  intro x hx
  obtain ⟨e, he, hfe⟩ := List.mem_map.mp hx
  exact List.mem_map.mpr ⟨e, List.mem_of_mem_filter he, hfe⟩

lemma fsKeys_fsSet (fs : Fs) (p : String) (c : List Byte) :
    fsKeys (fsSet fs p c) ⊆ p :: fsKeys fs := by
  intro x hx
  rcases (List.mem_cons).mp hx with h | h
  · rw [h]
    exact List.mem_cons_self _ _
  · exact List.mem_cons_of_mem _ (fsKeys_fsRemove fs p h)

lemma popErr_fs (w : World) : (popErr w).2.fs = w.fs := by
  obtain ⟨fs, errs, st⟩ := w
  cases errs <;> rfl

lemma popErr_errs_stable {w : World} (h : w.errs = []) : (popErr w).2 = w :=
  congrArg Prod.snd (popErr_nil h)

lemma fsKeys_osRemove (p : String) (w : World) :
    fsKeys (osRemove p w).2.fs ⊆ fsKeys w.fs := by
  unfold osRemove
  by_cases hp : (popErr w).1 = true
  · rw [if_pos hp]
    rw [popErr_fs]
    exact fun x hx => hx
  · rw [if_neg hp]
    intro x hx
    rw [popErr_fs] at hx
    exact fsKeys_fsRemove w.fs p hx

lemma fsKeys_osRename (src dst : String) (w : World) :
    fsKeys (osRename src dst w).2.fs ⊆ dst :: fsKeys w.fs := by
  unfold osRename
  by_cases hp : (popErr w).1 = true
  · rw [if_pos hp, popErr_fs]
    exact List.subset_cons_self _ _
  · rw [if_neg hp]
    cases hl : fsLookup (popErr w).2.fs src with
    | none =>
      rw [popErr_fs]
      exact List.subset_cons_self _ _
    | some cv =>
      intro x hx
      simp only [popErr_fs] at hx
      rcases (List.mem_cons).mp (fsKeys_fsSet _ dst cv hx) with h | h
      · rw [h]
        exact List.mem_cons_self _ _
      · exact List.mem_cons_of_mem _ (fsKeys_fsRemove w.fs src h)

lemma fsKeys_osOpenFile (p : String) (w : World) :
    fsKeys (osOpenFile p w).2.fs ⊆ p :: fsKeys w.fs := by
  unfold osOpenFile
  by_cases hp : (popErr w).1 = true
  · rw [if_pos hp, popErr_fs]
    exact List.subset_cons_self _ _
  · rw [if_neg hp]
    cases hl : fsLookup (popErr w).2.fs p with
    | some cv =>
      rw [popErr_fs]
      exact List.subset_cons_self _ _
    | none =>
      intro x hx
      simp only [popErr_fs] at hx
      exact fsKeys_fsSet _ p [] hx

lemma goBufFlush_fs (efh : EasyFileHandler) (w : World) :
    fsKeys (goBufFlush efh w).2.fs = fsKeys w.fs := by
  cases hb : efh.buffer with
  | none => simp [goBufFlush, hb]
  | some b =>
    simp only [goBufFlush, hb]
    unfold bufFlush
    by_cases hd : b.data = []
    · rw [if_pos hd]
    · rw [if_neg hd]
      by_cases hl : b.live = true
      · rw [if_pos hl]
        exact fsKeys_fsAppend w.fs b.target b.data
      · rw [if_neg hl]

lemma goClose_fs (efh : EasyFileHandler) (w : World) :
    (goClose efh w).2.2.fs = w.fs := by
  cases hf : efh.file with
  | none => simp [goClose, hf]
  | some f =>
    simp only [goClose, hf]
    by_cases hp : (popErr w).1 = true
    · rw [if_pos hp]
      exact popErr_fs w
    · rw [if_neg hp]
      exact popErr_fs w

lemma bufWrite_fs (cap : Nat) (b : GoBuffer) (p : List Byte) (w : World) :
    fsKeys (bufWrite cap b p w).2.fs = fsKeys w.fs := by
  unfold bufWrite
  by_cases h1 : b.data.length + p.length ≤ cap
  · rw [if_pos h1]
  · rw [if_neg h1]
    by_cases h2 : b.data.length = 0
    · rw [if_pos h2]
      exact fsKeys_fsAppend w.fs b.target p
    · rw [if_neg h2]
      dsimp only
      by_cases h3 : cap < (p.drop (cap - b.data.length)).length
      · rw [if_pos h3]
        simp [fsKeys_fsAppend]
      · rw [if_neg h3]
        simp [fsKeys_fsAppend]

lemma path_goBufFlush (efh : EasyFileHandler) (w : World) :
    (goBufFlush efh w).1.path = efh.path := by
  cases hb : efh.buffer <;> simp [goBufFlush, hb]

lemma path_goClose (efh : EasyFileHandler) (w : World) :
    (goClose efh w).2.1.path = efh.path := by
  cases hf : efh.file with
  | none => simp [goClose, hf]
  | some f =>
    simp only [goClose, hf]
    by_cases hp : (popErr w).1 = true
    · rw [if_pos hp]
    · rw [if_neg hp]

lemma fsKeys_shiftOne (path prog d : String) (i : Nat) (w : World) :
    fsKeys (shiftOne path prog d i w).2.fs ⊆ idxName path prog d (i + 1) :: fsKeys w.fs := by
  unfold shiftOne
  by_cases hex : fileIsExist w (logName path prog d i) = true
  · rw [if_pos hex]
    exact fsKeys_osRename _ _ w
  · rw [if_neg hex]
    exact List.subset_cons_self _ _

lemma fsKeys_shiftChain (path prog d : String) :
    ∀ (l : List Nat) (w : World),
      fsKeys (shiftChain path prog d l w).2.fs ⊆
        l.map (fun i => idxName path prog d (i + 1)) ++ fsKeys w.fs := by
  intro l
  induction l with
  | nil =>
    intro w
    simp [shiftChain]
  | cons i rest ih =>
    intro w
    simp only [shiftChain]
    rcases hs : shiftOne path prog d i w with ⟨eo, w1⟩
    have hw1 : fsKeys w1.fs ⊆ idxName path prog d (i + 1) :: fsKeys w.fs := by
      have := fsKeys_shiftOne path prog d i w
      rw [hs] at this
      exact this
    cases eo with
    | some e =>
      dsimp only
      intro x hx
      rcases (List.mem_cons).mp (hw1 hx) with h | h
      · simp [h]
      · simp [h]
    | none =>
      dsimp only
      intro x hx
      rcases (List.mem_append).mp (ih w1 hx) with h | h
      · simp only [List.map_cons, List.cons_append, List.mem_cons, List.mem_append]
        rcases (List.mem_map).mp h with ⟨j, hj1, hj2⟩
        right
        left
        exact List.mem_map.mpr ⟨j, hj1, hj2⟩
      · rcases (List.mem_cons).mp (hw1 h) with h2 | h2
        · simp [h2]
        · simp only [List.map_cons, List.cons_append, List.mem_cons, List.mem_append]
          right
          right
          exact h2

lemma path_rotateDate (date : String) (efh : EasyFileHandler) (w : World) :
    (rotateDate date efh w).2.1.path = efh.path := by
  unfold rotateDate
  by_cases hc : efh.currentDate ≠ date
  · rw [if_pos hc]
    cases hf : efh.file with
    | none => rfl
    | some f =>
      dsimp only
      rcases hg : goClose (goBufFlush efh w).1 (goBufFlush efh w).2 with ⟨eo, efh2, w2⟩
      have hp2 : efh2.path = efh.path := by
        have h2 := path_goClose (goBufFlush efh w).1 (goBufFlush efh w).2
        rw [hg, path_goBufFlush] at h2
        exact h2
      cases eo <;> dsimp only <;> exact hp2
  · rw [if_neg hc]

lemma keys_rotateDate (date : String) (efh : EasyFileHandler) (w : World) :
    fsKeys (rotateDate date efh w).2.2.fs ⊆ fsKeys w.fs := by
  unfold rotateDate
  by_cases hc : efh.currentDate ≠ date
  · rw [if_pos hc]
    cases hf : efh.file with
    | none => exact fun x hx => hx
    | some f =>
      dsimp only
      rcases hg : goClose (goBufFlush efh w).1 (goBufFlush efh w).2 with ⟨eo, efh2, w2⟩
      have hw2 : fsKeys w2.fs = fsKeys w.fs := by
        have h2 := goClose_fs (goBufFlush efh w).1 (goBufFlush efh w).2
        rw [hg] at h2
        have h3 : w2.fs = (goBufFlush efh w).2.fs := h2
        rw [fsKeys, h3, ← fsKeys]
        exact goBufFlush_fs efh w
      cases eo <;> dsimp only <;> rw [hw2] <;> exact fun x hx => hx
  · rw [if_neg hc]
    exact fun x hx => hx

lemma path_rotateSize (prog date : String) (mfs : Nat) (efh : EasyFileHandler) (w : World) :
    (rotateSize prog mfs date efh w).2.1.path = efh.path := by
  unfold rotateSize
  by_cases hnb : efh.nbytes > mfs
  · rw [if_pos hnb]
    dsimp only
    rcases hg : goClose (goBufFlush efh w).1 (goBufFlush efh w).2 with ⟨eo, efh2, w2⟩
    have hp2 : efh2.path = efh.path := by
      have h2 := path_goClose (goBufFlush efh w).1 (goBufFlush efh w).2
      rw [hg, path_goBufFlush] at h2
      exact h2
    cases eo with
    | some e => dsimp only; exact hp2
    | none =>
      dsimp only
      rcases hrm : (if fileIsExist w2 (idxName efh2.path prog date (LOG_MAX_ROTATE_FILE_NUM - 1)) = true
          then osRemove (idxName efh2.path prog date (LOG_MAX_ROTATE_FILE_NUM - 1)) w2
          else (none, w2)) with ⟨eo2, w3⟩
      cases eo2 <;> dsimp only <;> exact hp2
  · rw [if_neg hnb]

lemma keys_rotateSize (prog date : String) (mfs : Nat) (efh : EasyFileHandler) (w : World) :
    fsKeys (rotateSize prog mfs date efh w).2.2.fs ⊆
      chainNames efh.path prog date ++ fsKeys w.fs := by
  unfold rotateSize
  by_cases hnb : efh.nbytes > mfs
  · rw [if_pos hnb]
    dsimp only
    rcases hg : goClose (goBufFlush efh w).1 (goBufFlush efh w).2 with ⟨eo, efh2, w2⟩
    have hp2 : efh2.path = efh.path := by
      have h2 := path_goClose (goBufFlush efh w).1 (goBufFlush efh w).2
      rw [hg, path_goBufFlush] at h2
      exact h2
    have hw2 : fsKeys w2.fs = fsKeys w.fs := by
      have h2 := goClose_fs (goBufFlush efh w).1 (goBufFlush efh w).2
      rw [hg] at h2
      have h3 : w2.fs = (goBufFlush efh w).2.fs := h2
      rw [fsKeys, h3, ← fsKeys]
      exact goBufFlush_fs efh w
    cases eo with
    | some e =>
      dsimp only
      rw [hw2]
      exact fun x hx => List.mem_append_right _ hx
    | none =>
      dsimp only
      rcases hrm : (if fileIsExist w2 (idxName efh2.path prog date (LOG_MAX_ROTATE_FILE_NUM - 1)) = true
          then osRemove (idxName efh2.path prog date (LOG_MAX_ROTATE_FILE_NUM - 1)) w2
          else (none, w2)) with ⟨eo2, w3⟩
      have hw3 : fsKeys w3.fs ⊆ fsKeys w2.fs := by
        by_cases hex : fileIsExist w2 (idxName efh2.path prog date (LOG_MAX_ROTATE_FILE_NUM - 1)) = true
        · rw [if_pos hex] at hrm
          have h4 := fsKeys_osRemove (idxName efh2.path prog date (LOG_MAX_ROTATE_FILE_NUM - 1)) w2
          rw [hrm] at h4
          exact h4
        · rw [if_neg hex] at hrm
          simp only [Prod.mk.injEq] at hrm
          rw [← hrm.2]
          exact fun x hx => hx
      cases eo2 with
      | some e2 =>
        dsimp only
        intro x hx
        apply List.mem_append_right
        rw [← hw2]
        exact hw3 hx
      | none =>
        dsimp only
        intro x hx
        have hs := fsKeys_shiftChain efh2.path prog date
          ((List.range (LOG_MAX_ROTATE_FILE_NUM - 1)).reverse) w3
        rcases List.mem_append.mp (hs hx) with h | h
        · rcases List.mem_map.mp h with ⟨i, hi, hxi⟩
          have hi9 : i + 1 < LOG_MAX_ROTATE_FILE_NUM := by
            simp only [List.mem_reverse, List.mem_range, LOG_MAX_ROTATE_FILE_NUM] at hi ⊢
            omega
          apply List.mem_append_left
          unfold chainNames
          apply List.mem_map.mpr
          refine ⟨i + 1, List.mem_range.mpr hi9, ?_⟩
          rw [← hxi, hp2]
          simp [logName]
        · apply List.mem_append_right
          rw [← hw2]
          exact hw3 h
  · rw [if_neg hnb]
    exact fun x hx => List.mem_append_right _ hx

lemma path_openIfNeeded (prog date : String) (efh : EasyFileHandler) (w : World) :
    (openIfNeeded prog date efh w).2.1.path = efh.path := by
  unfold openIfNeeded
  cases hf : efh.file with
  | some f => rfl
  | none =>
    dsimp only
    rcases ho : osOpenFile (liveName efh.path prog date) w with ⟨eo, w1⟩
    cases eo <;> rfl

lemma keys_openIfNeeded (prog date : String) (efh : EasyFileHandler) (w : World) :
    fsKeys (openIfNeeded prog date efh w).2.2.fs ⊆
      liveName efh.path prog date :: fsKeys w.fs := by
  unfold openIfNeeded
  cases hf : efh.file with
  | some f => exact List.subset_cons_self _ _
  | none =>
    dsimp only
    rcases ho : osOpenFile (liveName efh.path prog date) w with ⟨eo, w1⟩
    have h1 := fsKeys_osOpenFile (liveName efh.path prog date) w
    rw [ho] at h1
    cases eo <;> dsimp only <;> exact h1

lemma path_rotateFile (prog date : String) (mfs : Nat) (efh : EasyFileHandler) (w : World) :
    (rotateFile prog mfs date efh w).2.1.path = efh.path := by
  unfold rotateFile
  rcases hrd : rotateDate date efh w with ⟨eo, efh1, w1⟩
  have hp1 : efh1.path = efh.path := by
    have h1 := path_rotateDate date efh w
    rw [hrd] at h1
    exact h1
  cases eo with
  | some e => dsimp only; exact hp1
  | none =>
    dsimp only
    rcases hrs : rotateSize prog mfs date efh1 w1 with ⟨eo2, efh2, w2⟩
    have hp2 : efh2.path = efh.path := by
      have h2 := path_rotateSize prog date mfs efh1 w1
      rw [hrs, hp1] at h2
      exact h2
    cases eo2 with
    | some e => dsimp only; exact hp2
    | none =>
      dsimp only
      rw [path_openIfNeeded]
      exact hp2

lemma keys_rotateFile (prog date : String) (mfs : Nat) (efh : EasyFileHandler) (w : World) :
    fsKeys (rotateFile prog mfs date efh w).2.2.fs ⊆
      chainNames efh.path prog date ++ fsKeys w.fs := by
  unfold rotateFile
  rcases hrd : rotateDate date efh w with ⟨eo, efh1, w1⟩
  have hk1 : fsKeys w1.fs ⊆ fsKeys w.fs := by
    have h1 := keys_rotateDate date efh w
    rw [hrd] at h1
    exact h1
  have hp1 : efh1.path = efh.path := by
    have h1 := path_rotateDate date efh w
    rw [hrd] at h1
    exact h1
  cases eo with
  | some e =>
    dsimp only
    exact fun x hx => List.mem_append_right _ (hk1 hx)
  | none =>
    dsimp only
    rcases hrs : rotateSize prog mfs date efh1 w1 with ⟨eo2, efh2, w2⟩
    have hk2 : fsKeys w2.fs ⊆ chainNames efh.path prog date ++ fsKeys w.fs := by
      have h2 := keys_rotateSize prog date mfs efh1 w1
      rw [hrs] at h2
      intro x hx
      rcases List.mem_append.mp (h2 hx) with h | h
      · rw [hp1] at h
        exact List.mem_append_left _ h
      · exact List.mem_append_right _ (hk1 h)
    have hp2 : efh2.path = efh.path := by
      have h2 := path_rotateSize prog date mfs efh1 w1
      rw [hrs, hp1] at h2
      exact h2
    cases eo2 with
    | some e => dsimp only; exact hk2
    | none =>
      dsimp only
      intro x hx
      rcases List.mem_cons.mp (keys_openIfNeeded prog date efh2 w2 hx) with h | h
      · apply List.mem_append_left
        unfold chainNames
        apply List.mem_map.mpr
        refine ⟨0, List.mem_range.mpr (by simp [LOG_MAX_ROTATE_FILE_NUM]), ?_⟩
        rw [h, hp2]
        simp [logName]
      · exact hk2 h

lemma path_Write (prog date : String) (mfs : Nat) (data : List Byte)
    (efh : EasyFileHandler) (w : World) :
    (Write prog mfs date data efh w).2.1.path = efh.path := by
  unfold Write
  rcases hr : rotateFile prog mfs date efh w with ⟨eo, efh1, w1⟩
  have hp1 : efh1.path = efh.path := by
    have h1 := path_rotateFile prog date mfs efh w
    rw [hr] at h1
    exact h1
  cases eo with
  | some e => dsimp only; exact hp1
  | none =>
    dsimp only
    cases hb : efh1.buffer with
    | none => exact hp1
    | some b => dsimp only; exact hp1

lemma keys_Write (prog date : String) (mfs : Nat) (data : List Byte)
    (efh : EasyFileHandler) (w : World) :
    fsKeys (Write prog mfs date data efh w).2.2.fs ⊆
      chainNames efh.path prog date ++ fsKeys w.fs := by
  unfold Write
  rcases hr : rotateFile prog mfs date efh w with ⟨eo, efh1, w1⟩
  have hk1 : fsKeys w1.fs ⊆ chainNames efh.path prog date ++ fsKeys w.fs := by
    have h1 := keys_rotateFile prog date mfs efh w
    rw [hr] at h1
    exact h1
  cases eo with
  | some e => dsimp only; exact hk1
  | none =>
    dsimp only
    cases hb : efh1.buffer with
    | none => exact hk1
    | some b =>
      dsimp only
      intro x hx
      apply hk1
      rw [← bufWrite_fs efh1.bufferSize b data w1]
      exact hx

lemma writeSeq_keys (prog date : String) (mfs : Nat) :
    ∀ (ds : List (List Byte)) (efh : EasyFileHandler) (w : World),
      (∀ x ∈ fsKeys w.fs, x ∈ chainNames efh.path prog date) →
      (writeSeq prog mfs date ds (efh, w)).1.path = efh.path ∧
      ∀ x ∈ fsKeys (writeSeq prog mfs date ds (efh, w)).2.fs,
        x ∈ chainNames efh.path prog date := by
  intro ds
  induction ds with
  | nil =>
    intro efh w h
    exact ⟨rfl, h⟩
  | cons d rest ih =>
    intro efh w h
    simp only [writeSeq]
    rcases hw : Write prog mfs date d efh w with ⟨res, efh1, w1⟩
    have hp : efh1.path = efh.path := by
      have h1 := path_Write prog date mfs d efh w
      rw [hw] at h1
      exact h1
    have hkeys : ∀ x ∈ fsKeys w1.fs, x ∈ chainNames efh.path prog date := by
      intro x hx
      have hsub := keys_Write prog date mfs d efh w
      rw [hw] at hsub
      rcases List.mem_append.mp (hsub hx) with h1 | h1
      · exact h1
      · exact h x h1
    obtain ⟨hp2, hk2⟩ := ih efh1 w1 (by rw [hp]; exact hkeys)
    refine ⟨by rw [hp2, hp], ?_⟩
    intro x hx
    have h3 := hk2 x hx
    rw [hp] at h3
    exact h3

/-- Claim C2: starting from an empty filesystem, any same-day sequence of
writes (with any payloads and any injected-error schedule, hence any number
of size-triggered rotations) only ever produces files named by the chain
names of that date at indices 0 through 9 — index 0 the live file, higher
indices the backups — so the number of distinct log files for that date
never exceeds `LOG_MAX_ROTATE_FILE_NUM = 10`. -/
theorem c2_backup_count_never_exceeds_depth (path prog date : String)
    (mfs bufferSize : Nat) (ds : List (List Byte)) (errs : List Bool) :
    (∀ x ∈ fsKeys (writeSeq prog mfs date ds
        (NewEasyFileHandler path bufferSize, ⟨[], errs, []⟩)).2.fs,
      x ∈ chainNames path prog date) ∧
    (fsKeys (writeSeq prog mfs date ds
        (NewEasyFileHandler path bufferSize, ⟨[], errs, []⟩)).2.fs).toFinset.card
      ≤ LOG_MAX_ROTATE_FILE_NUM := by
  have h := writeSeq_keys prog date mfs ds (NewEasyFileHandler path bufferSize)
    ⟨[], errs, []⟩ (by intro x hx; simp [fsKeys] at hx)
  constructor
  · intro x hx
    exact h.2 x hx
  · have hsub : (fsKeys (writeSeq prog mfs date ds
        (NewEasyFileHandler path bufferSize, ⟨[], errs, []⟩)).2.fs).toFinset ⊆
        (chainNames path prog date).toFinset := by
      intro x hx
      rw [List.mem_toFinset] at hx ⊢
      exact h.2 x hx
    calc (fsKeys (writeSeq prog mfs date ds
            (NewEasyFileHandler path bufferSize, ⟨[], errs, []⟩)).2.fs).toFinset.card
        ≤ (chainNames path prog date).toFinset.card := Finset.card_le_card hsub
      _ ≤ (chainNames path prog date).length := List.toFinset_card_le _
      _ = LOG_MAX_ROTATE_FILE_NUM := by simp [chainNames]

/-- Witness for C2 at a concrete two-write run. -/
theorem c2_witness :
    (fsKeys (writeSeq "p" 100 "2024-01-01" [[1], [2]]
        (NewEasyFileHandler "." 10, ⟨[], [], []⟩)).2.fs).toFinset.card
      ≤ LOG_MAX_ROTATE_FILE_NUM :=
  (c2_backup_count_never_exceeds_depth "." "p" "2024-01-01" 100 10 [[1], [2]] []).2

/-- Claim C9: the live log file the sink opens is named
`path + "/" + prog + "-" + D + ".log"` (for any base path, program name and
date), and the backup at index `i` carries the additional suffix `"." ++ i`,
shown here on the realized literal names `./prog-2024-01-01.log` and
`./prog-2024-01-01.log.1` after a size rotation. -/
theorem c9_file_naming (path prog D : String) (bufferSize mfs : Nat) (data : List Byte) :
    fsKeys (Write prog mfs D data (NewEasyFileHandler path bufferSize)
        ⟨[], [], []⟩).2.2.fs = [path ++ "/" ++ prog ++ "-" ++ D ++ ".log"] ∧
    (Write prog mfs D data (NewEasyFileHandler path bufferSize) ⟨[], [], []⟩).2.1.file
      = some (path ++ "/" ++ prog ++ "-" ++ D ++ ".log") ∧
    fsLookup after4.2.fs "./prog-2024-01-01.log" = some [] ∧
    fsLookup after4.2.fs "./prog-2024-01-01.log.1" = some (pay40a ++ pay40b ++ pay40c) := by
  have hrot : rotateFile prog mfs D (NewEasyFileHandler path bufferSize) ⟨[], [], []⟩ =
      (none,
        { path := path
          file := some (liveName path prog D)
          buffer := some ⟨liveName path prog D, true, []⟩
          bufferSize := bufferSize
          currentDate := D
          nbytes := 0 },
        ⟨[(liveName path prog D, [])], [], []⟩) := by
    by_cases hD : ("" : String) = D
    · subst hD
      rfl
    · have hcond : (NewEasyFileHandler path bufferSize).currentDate ≠ D := hD
      unfold rotateFile rotateDate
      rw [if_pos hcond]
      rfl
  refine ⟨?_, ?_, by decide, by decide⟩
  · unfold Write
    rw [hrot]
    dsimp only
    by_cases hfit : ([] : List Byte).length + data.length ≤ bufferSize
    · unfold bufWrite
      rw [if_pos hfit]
      rfl
    · unfold bufWrite
      rw [if_neg hfit]
      dsimp only
      simp only [List.length_nil]
      rw [if_pos trivial]
      dsimp only
      rw [fsKeys_fsAppend]
      rfl
  · unfold Write
    rw [hrot]
    dsimp only
    rfl

/-- Witness for C10 after three 40-byte writes on day one with threshold
100: the first write of day two fails with `os.ErrInvalid` and the stale
counter survives. -/
theorem c10_witness :
    (Write "prog" 100 "2024-01-02" pay40d after3.1 after3.2).1 = (0, some Err.invalid) ∧
    (Write "prog" 100 "2024-01-02" pay40d after3.1 after3.2).2.1.nbytes = 120 := by
  have h := c10_first_write_of_new_day_fails "prog" "2024-01-01" "2024-01-02" 100
    (pay40a ++ pay40b ++ pay40c) [] pay40d after3.1 after3.2
    (by decide) (by decide) (by decide) (by decide) (by decide) (by decide) (by decide)
  exact ⟨h.1, h.2.2.1.trans (by decide)⟩

end Elog
